import Mathlib

/-
Verification of the chat-service realtime backend: a shallow embedding of
the visibility store, connection registry, broadcast engine and HTTP-level
handlers, together with theorems settling the specification claims.

Databases are modelled as lists of rows; SQL queries become filters, finds
and updates over those lists; the websocket hub's Go maps become
association lists keyed by room id; handler control flow is translated
branch by branch, and the externally observable side effects of a handler
(persistence writes, unhides, broadcasts) are recorded in an effect trace.
-/

set_option maxHeartbeats 1000000

namespace ChatService

/-! ## Data model (internal/models) -/

/-- Mirrors `models.Message`: a private chat message row.  `createdAt` is the
database timestamp, modelled as an integer. -/
structure Message where
  id : Int
  chatID : Int
  senderID : Int
  content : String
  deletedBySender : Bool
  deletedByReceiver : Bool
  deletedForAll : Bool
  createdAt : Int
  deriving Repr, DecidableEq

/-- Mirrors `models.GroupMessage`: a group message row with a single
`deletedForAll` flag. -/
structure GroupMessage where
  id : Int
  groupID : Int
  senderID : Int
  content : String
  deletedForAll : Bool
  createdAt : Int
  deriving Repr, DecidableEq

/-- Mirrors `models.Chat`: a private chat row between two users. -/
structure Chat where
  id : Int
  user1ID : Int
  user2ID : Int
  createdAt : Int
  deriving Repr, DecidableEq

/-- Mirrors `models.ChatSummary`: the per-user view of a chat row returned
by `ListChats`. -/
structure ChatSummary where
  chatID : Int
  friendID : Int
  created : Int
  deriving Repr, DecidableEq

/-! ## Message repository (internal/repositories/message_repository.go)

The `messages` table is a `List Message`; the SQL WHERE clauses become
boolean row predicates and ORDER BY becomes an insertion sort on
`createdAt`. -/

/-- Row predicate of the `GetChatMessagesForUser` query:
`chat_id=$1 AND deleted_for_all = FALSE AND NOT (sender_id=$2 AND
deleted_by_sender = TRUE) AND NOT (sender_id<>$2 AND deleted_by_receiver =
TRUE)`. -/
def chatMsgRowPred (chatID userID : Int) (m : Message) : Bool :=
  m.chatID == chatID && m.deletedForAll == false &&
    !(m.senderID == userID && m.deletedBySender == true) &&
    !(m.senderID != userID && m.deletedByReceiver == true)

/-- Ascending `created_at` order used by the message listing queries. -/
def createdAtLE (a b : Message) : Prop := a.createdAt ≤ b.createdAt

instance : DecidableRel createdAtLE := fun a b => Int.decLe a.createdAt b.createdAt

instance : IsTotal Message createdAtLE := ⟨fun a b => Int.le_total a.createdAt b.createdAt⟩

instance : IsTrans Message createdAtLE := ⟨fun _ _ _ h1 h2 => le_trans h1 h2⟩

/-- Embeds `MessageRepo.GetChatMessagesForUser`: filter by the query's WHERE
clause, order by `created_at ASC`. -/
def getChatMessagesForUser (msgs : List Message) (chatID userID : Int) : List Message :=
  List.insertionSort createdAtLE (msgs.filter (chatMsgRowPred chatID userID))

/-- Ascending `created_at` order on group messages. -/
def gCreatedAtLE (a b : GroupMessage) : Prop := a.createdAt ≤ b.createdAt

instance : DecidableRel gCreatedAtLE := fun a b => Int.decLe a.createdAt b.createdAt

instance : IsTotal GroupMessage gCreatedAtLE := ⟨fun a b => Int.le_total a.createdAt b.createdAt⟩

instance : IsTrans GroupMessage gCreatedAtLE := ⟨fun _ _ _ h1 h2 => le_trans h1 h2⟩

/-- Embeds `GroupMessageRepo.ListGroupMessages`:
`WHERE group_id=$1 AND deleted_for_all = FALSE ORDER BY created_at ASC`. -/
def listGroupMessages (msgs : List GroupMessage) (groupID : Int) : List GroupMessage :=
  List.insertionSort gCreatedAtLE
    (msgs.filter (fun m => m.groupID == groupID && m.deletedForAll == false))

/-! ## Chat repository state (internal/repositories/chat_repository.go)

`chats` and `messages` are table contents; `visibility` is the
`chat_visibility` table keyed by `(chat_id, user_id)` (unique constraint,
so upserts replace in place).  `nextChatID`/`nextMsgID` model the serial
id columns and `now` the database clock used for `created_at`. -/

structure ChatDB where
  chats : List Chat
  visibility : List ((Int × Int) × Bool)
  messages : List Message
  nextChatID : Int
  nextMsgID : Int
  now : Int
  deriving Repr, DecidableEq

/-- Match of a `chat_visibility` row against its `(chat_id, user_id)` key. -/
def visKeyMatch (chatID userID : Int) (e : (Int × Int) × Bool) : Bool :=
  e.1.1 == chatID && e.1.2 == userID

/-- The `ON CONFLICT (chat_id, user_id) DO UPDATE` upsert used by
`HideChatForUser` and `UnhideChatForUser` (the key has a unique
constraint). -/
def visUpsert (vis : List ((Int × Int) × Bool)) (chatID userID : Int) (hidden : Bool) :
    List ((Int × Int) × Bool) :=
  if vis.any (visKeyMatch chatID userID) then
    vis.map (fun e => if visKeyMatch chatID userID e then (e.1, hidden) else e)
  else
    vis ++ [((chatID, userID), hidden)]

/-- Lookup of the `chat_visibility` row for `(chatID, userID)`. -/
def visLookup (vis : List ((Int × Int) × Bool)) (chatID userID : Int) : Option Bool :=
  (vis.find? (visKeyMatch chatID userID)).map (fun e => e.2)

/-- Embeds `ChatRepo.HideChatForUser`. -/
def hideChatForUser (db : ChatDB) (chatID userID : Int) : ChatDB :=
  { db with visibility := visUpsert db.visibility chatID userID true }

/-- Embeds `ChatRepo.UnhideChatForUser`. -/
def unhideChatForUser (db : ChatDB) (chatID userID : Int) : ChatDB :=
  { db with visibility := visUpsert db.visibility chatID userID false }

/-- Embeds `ChatRepo.GetChat` (`SELECT ... FROM chats WHERE id=$1`); `none`
is the `ErrChatNotFound` case. -/
def getChat (db : ChatDB) (chatID : Int) : Option Chat :=
  db.chats.find? (fun c => c.id == chatID)

/-- Embeds the `ListChats` row filter: the user is a participant and the
joined `chat_visibility.hidden` is NULL or FALSE. -/
def listChatsRowPred (db : ChatDB) (userID : Int) (c : Chat) : Bool :=
  (c.user1ID == userID || c.user2ID == userID) &&
    (match visLookup db.visibility c.id userID with
     | none => true
     | some h => !h)

/-- Descending `created_at` order of `ListChats`. -/
def createdAtGE (a b : Chat) : Prop := b.createdAt ≤ a.createdAt

instance : DecidableRel createdAtGE := fun a b => Int.decLe b.createdAt a.createdAt

/-- Embeds `ChatRepo.ListChats`: filter, order by `created_at DESC`, and map
each row to a `ChatSummary` whose `friendID` is the other participant. -/
def listChats (db : ChatDB) (userID : Int) : List ChatSummary :=
  (List.insertionSort createdAtGE (db.chats.filter (listChatsRowPred db userID))).map
    (fun c =>
      { chatID := c.id
        friendID := if c.user1ID == userID then c.user2ID else c.user1ID
        created := c.createdAt })

/-- Embeds `ChatRepo.CreateOrGetChat`: reject self-chat, canonicalise the
pair (smaller id first, via `sort.Ints`), select the existing row or insert
a fresh one, then unhide the chat for both users. -/
def createOrGetChat (db : ChatDB) (userID friendID : Int) : Except String (Chat × ChatDB) :=
  if userID = friendID then
    .error "cannot create chat with self"
  else
    let user1 := min userID friendID
    let user2 := max userID friendID
    let found := db.chats.find? (fun c => c.user1ID == user1 && c.user2ID == user2)
    let chatAndDb :=
      match found with
      | some c => (c, db)
      | none =>
        let c : Chat :=
          { id := db.nextChatID, user1ID := user1, user2ID := user2, createdAt := db.now }
        (c, { db with chats := db.chats ++ [c], nextChatID := db.nextChatID + 1 })
    let db2 := unhideChatForUser chatAndDb.2 chatAndDb.1.id userID
    let db3 := unhideChatForUser db2 chatAndDb.1.id friendID
    .ok (chatAndDb.1, db3)

/-- Well-formedness of the `chats` table maintained by `CreateOrGetChat`:
rows are canonically ordered (smaller user id first) and at most one row
exists per unordered user pair. -/
def chatsWF (chats : List Chat) : Prop :=
  (∀ c ∈ chats, c.user1ID < c.user2ID) ∧
  (∀ c ∈ chats, ∀ cc ∈ chats, c.user1ID = cc.user1ID → c.user2ID = cc.user2ID → c = cc)

/-! ## Message repository writes -/

/-- Embeds `MessageRepo.CreateChatMessage` (INSERT ... RETURNING): a fresh
row with all three deletion flags false. -/
def createChatMessage (db : ChatDB) (chatID senderID : Int) (content : String) :
    Message × ChatDB :=
  let msg : Message :=
    { id := db.nextMsgID, chatID := chatID, senderID := senderID, content := content
      deletedBySender := false, deletedByReceiver := false, deletedForAll := false
      createdAt := db.now }
  (msg, { db with messages := db.messages ++ [msg], nextMsgID := db.nextMsgID + 1 })

/-- Embeds `MessageRepo.GetMessage`; `none` is `ErrMessageNotFound`. -/
def getMessage (db : ChatDB) (messageID : Int) : Option Message :=
  db.messages.find? (fun m => m.id == messageID)

/-- Embeds `MessageRepo.SoftDeleteMessageForUser`: `UPDATE messages SET
deleted_by_sender = TRUE WHERE id=$1` when `isSender`, otherwise the
`deleted_by_receiver` variant. -/
def softDeleteMessageForUser (db : ChatDB) (messageID : Int) (isSender : Bool) : ChatDB :=
  { db with
    messages := db.messages.map (fun m =>
      if m.id == messageID then
        if isSender then { m with deletedBySender := true }
        else { m with deletedByReceiver := true }
      else m) }

/-- Embeds `MessageRepo.DeleteMessageForAll`: `UPDATE messages SET
deleted_for_all = TRUE WHERE id=$1 AND sender_id=$2`, returning
`ErrMessageNotFound` when zero rows were affected. -/
def deleteMessageForAllRepo (db : ChatDB) (messageID userID : Int) : Except Unit ChatDB :=
  let affected := db.messages.countP (fun m => m.id == messageID && m.senderID == userID)
  let db' :=
    { db with
      messages := db.messages.map (fun m =>
        if m.id == messageID && m.senderID == userID then { m with deletedForAll := true }
        else m) }
  if affected = 0 then .error () else .ok db'

/-! ## Chat handlers (internal/handlers, ChatHandler)

Each handler is embedded as a pure function returning the HTTP status, the
resulting database, and the ordered trace of externally observable side
effects it performed.  A `persistFails` flag models a storage-layer failure
of the handler's write call (the repository returning a non-nil error). -/

/-- HTTP statuses produced by the chat handlers. -/
inductive HStatus
  | ok
  | created
  | noContent
  | badRequest
  | unauthorized
  | forbidden
  | notFound
  | internalError
  deriving Repr, DecidableEq

/-- Externally observable handler side effects, in execution order. -/
inductive Effect
  | persistMessage (m : Message)
  | unhideChat (chatID userID : Int)
  | broadcastMessage (chatID : Int) (m : Message)
  | softDelete (messageID : Int) (isSender : Bool)
  | persistDeleteForAll (messageID userID : Int)
  | broadcastDeletion (chatID messageID : Int)
  deriving Repr, DecidableEq

/-- Whether an effect is a websocket broadcast. -/
def Effect.isBroadcast : Effect → Bool
  | .broadcastMessage _ _ => true
  | .broadcastDeletion _ _ => true
  | _ => false

/-- Embeds `isChatParticipant` from the handlers package. -/
def isChatParticipant (chat : Chat) (userID : Int) : Bool :=
  chat.user1ID == userID || chat.user2ID == userID

/-- Embeds `ChatHandler.PostChatMessage`: resolve the chat (404), check
participation (403), bind the request body (400 on empty content), persist
the message (500 when the store fails, aborting before any broadcast), then
unhide the chat for both participants and broadcast the persisted
message. -/
def postChatMessage (db : ChatDB) (chatID userID : Int) (content : String)
    (persistFails : Bool) : HStatus × ChatDB × List Effect :=
  match getChat db chatID with
  | none => (.notFound, db, [])
  | some chat =>
    if !isChatParticipant chat userID then (.forbidden, db, [])
    else if content = "" then (.badRequest, db, [])
    else if persistFails then (.internalError, db, [])
    else
      let msgDb := createChatMessage db chatID userID content
      let db2 := unhideChatForUser msgDb.2 chatID chat.user1ID
      let db3 := unhideChatForUser db2 chatID chat.user2ID
      (.created, db3,
        [Effect.persistMessage msgDb.1,
         Effect.unhideChat chatID chat.user1ID,
         Effect.unhideChat chatID chat.user2ID,
         Effect.broadcastMessage chatID msgDb.1])

/-- Embeds `ChatHandler.DeleteMessageForMe`: resolve chat and message,
check participation and that the message belongs to the chat, derive the
side to delete from the actor's identity, and soft-delete.  No broadcast is
performed on any path. -/
def deleteMessageForMe (db : ChatDB) (chatID messageID userID : Int) :
    HStatus × ChatDB × List Effect :=
  match getChat db chatID with
  | none => (.notFound, db, [])
  | some chat =>
    if !isChatParticipant chat userID then (.forbidden, db, [])
    else
      match getMessage db messageID with
      | none => (.notFound, db, [])
      | some msg =>
        if msg.chatID != chatID then (.badRequest, db, [])
        else
          let isSender := msg.senderID == userID
          if !isSender && !isChatParticipant chat userID then (.forbidden, db, [])
          else
            (.noContent, softDeleteMessageForUser db messageID isSender,
              [Effect.softDelete messageID isSender])

/-- Embeds `ChatHandler.DeleteMessageForAll`: resolve chat and message,
check participation, message/chat consistency and that the actor is the
sender, persist the delete-for-all transition (404 when zero rows matched,
500 when the store fails — both abort before any broadcast), then broadcast
the deletion event. -/
def deleteMessageForAllHandler (db : ChatDB) (chatID messageID userID : Int)
    (persistFails : Bool) : HStatus × ChatDB × List Effect :=
  match getChat db chatID with
  | none => (.notFound, db, [])
  | some chat =>
    if !isChatParticipant chat userID then (.forbidden, db, [])
    else
      match getMessage db messageID with
      | none => (.notFound, db, [])
      | some msg =>
        if msg.chatID != chatID then (.badRequest, db, [])
        else if msg.senderID != userID then (.forbidden, db, [])
        else if persistFails then (.internalError, db, [])
        else
          match deleteMessageForAllRepo db messageID userID with
          | .error _ => (.notFound, db, [])
          | .ok db' =>
            (.noContent, db',
              [Effect.persistDeleteForAll messageID userID,
               Effect.broadcastDeletion chatID messageID])

/-- Embeds `ChatHandler.DeleteChatForMe`: resolve the chat, check
participation, then hide the chat for the requester. -/
def deleteChatForMe (db : ChatDB) (chatID userID : Int) : HStatus × ChatDB :=
  match getChat db chatID with
  | none => (.notFound, db)
  | some chat =>
    if !isChatParticipant chat userID then (.forbidden, db)
    else (.noContent, hideChatForUser db chatID userID)

/-! ## Websocket hub (internal/ws/hub.go)

A live connection is identified by its pointer, modelled as a natural
number.  A Go `map[K]V` becomes an association list with unique keys;
assignment updates the entry in place or appends a fresh one, deletion
drops the entry, both on the first (unique) occurrence of the key. -/

/-- Opaque identity of a `*websocket.Conn`. -/
abbrev Conn := Nat

/-- Mirrors `ws.ConnInfo`: per-connection metadata captured at attach. -/
structure ConnInfo where
  connID : String
  userID : Int
  deviceID : String
  ip : String
  requestID : String
  traceID : String
  connectedAt : Int
  deriving Repr, DecidableEq

/-- Go map read `m[k]`. -/
def mapLookup {κ α : Type} [DecidableEq κ] : List (κ × α) → κ → Option α
  | [], _ => none
  | e :: rest, k => if e.1 = k then some e.2 else mapLookup rest k

/-- Go map assignment `m[k] = v`. -/
def mapUpdate {κ α : Type} [DecidableEq κ] : List (κ × α) → κ → α → List (κ × α)
  | [], k, v => [(k, v)]
  | e :: rest, k, v => if e.1 = k then (k, v) :: rest else e :: mapUpdate rest k v

/-- Go map deletion `delete(m, k)`. -/
def mapDelete {κ α : Type} [DecidableEq κ] : List (κ × α) → κ → List (κ × α)
  | [], _ => []
  | e :: rest, k => if e.1 = k then rest else e :: mapDelete rest k

/-- Go set-map assignment `conns[conn] = true`. -/
def connInsert (conns : List Conn) (c : Conn) : List Conn :=
  if c ∈ conns then conns else conns ++ [c]

/-- The `rooms[id][conn] = true` pattern of `AddChatClient`/`AddGroupClient`
(lazy creation of the inner set). -/
def roomsAdd (rooms : List (Int × List Conn)) (rid : Int) (c : Conn) :
    List (Int × List Conn) :=
  mapUpdate rooms rid (connInsert ((mapLookup rooms rid).getD []) c)

/-- The conn-info counterpart `info[id][conn] = i`. -/
def infosAdd (infos : List (Int × List (Conn × ConnInfo))) (rid : Int) (c : Conn)
    (i : ConnInfo) : List (Int × List (Conn × ConnInfo)) :=
  mapUpdate infos rid (mapUpdate ((mapLookup infos rid).getD []) c i)

/-- The `delete(conns, conn); if len(conns) == 0 { delete(rooms, id) }`
pattern of `RemoveChatClient`/`RemoveGroupClient`. -/
def roomsRemove (rooms : List (Int × List Conn)) (rid : Int) (c : Conn) :
    List (Int × List Conn) :=
  match mapLookup rooms rid with
  | none => rooms
  | some conns =>
    let conns2 := conns.erase c
    if conns2 = [] then mapDelete rooms rid else mapUpdate rooms rid conns2

/-- The conn-info counterpart of the removal pattern. -/
def infosRemove (infos : List (Int × List (Conn × ConnInfo))) (rid : Int) (c : Conn) :
    List (Int × List (Conn × ConnInfo)) :=
  match mapLookup infos rid with
  | none => infos
  | some m =>
    let m2 := mapDelete m c
    if m2 = [] then mapDelete infos rid else mapUpdate infos rid m2

/-- Mirrors `ws.Hub`: two room namespaces plus per-connection metadata. -/
structure Hub where
  chatRooms : List (Int × List Conn)
  groupRooms : List (Int × List Conn)
  chatConnInfo : List (Int × List (Conn × ConnInfo))
  groupConnInfo : List (Int × List (Conn × ConnInfo))
  deriving Repr, DecidableEq

/-- Mirrors `ws.NewHub`. -/
def emptyHub : Hub :=
  { chatRooms := [], groupRooms := [], chatConnInfo := [], groupConnInfo := [] }

/-- Embeds `Hub.AddChatClient`. -/
def AddChatClient (h : Hub) (chatID : Int) (conn : Conn) (info : ConnInfo) : Hub :=
  { h with
    chatRooms := roomsAdd h.chatRooms chatID conn
    chatConnInfo := infosAdd h.chatConnInfo chatID conn info }

/-- Embeds `Hub.RemoveChatClient`. -/
def RemoveChatClient (h : Hub) (chatID : Int) (conn : Conn) : Hub :=
  { h with
    chatRooms := roomsRemove h.chatRooms chatID conn
    chatConnInfo := infosRemove h.chatConnInfo chatID conn }

/-- Embeds `Hub.AddGroupClient`. -/
def AddGroupClient (h : Hub) (groupID : Int) (conn : Conn) (info : ConnInfo) : Hub :=
  { h with
    groupRooms := roomsAdd h.groupRooms groupID conn
    groupConnInfo := infosAdd h.groupConnInfo groupID conn info }

/-- Embeds `Hub.RemoveGroupClient`. -/
def RemoveGroupClient (h : Hub) (groupID : Int) (conn : Conn) : Hub :=
  { h with
    groupRooms := roomsRemove h.groupRooms groupID conn
    groupConnInfo := infosRemove h.groupConnInfo groupID conn }

/-- Embeds `Hub.getConnInfo`. -/
def getConnInfo (h : Hub) (kind : String) (resourceID : Int) (conn : Conn) :
    Option ConnInfo :=
  if kind = "chat" then
    match mapLookup h.chatConnInfo resourceID with
    | none => none
    | some infos => mapLookup infos conn
  else
    match mapLookup h.groupConnInfo resourceID with
    | none => none
    | some infos => mapLookup infos conn

/-- The `ws_error` lifecycle event emitted by `Hub.publishWSError`. -/
structure WSErrorEvent where
  kind : String
  resourceID : Int
  connID : String
  durationMs : Int
  reason : String
  userID : Int
  deviceID : String
  ip : String
  deriving Repr, DecidableEq

/-- Embeds `Hub.publishWSError`: look the connection's metadata up in the
hub and append the `ws_error` event; when the metadata is absent the
function returns without emitting anything. -/
def publishWSError (h : Hub) (events : List WSErrorEvent) (kind : String)
    (resourceID : Int) (conn : Conn) (reason : String) (now : Int) : List WSErrorEvent :=
  match getConnInfo h kind resourceID conn with
  | none => events
  | some info =>
    events ++
      [{ kind := kind, resourceID := resourceID, connID := info.connID
         durationMs := now - info.connectedAt, reason := reason
         userID := info.userID, deviceID := info.deviceID, ip := info.ip }]

/-- Outcome of one broadcast call: final hub, emitted `ws_error` events,
connections successfully written to, and connections closed after a write
failure. -/
structure BroadcastResult where
  hub : Hub
  events : List WSErrorEvent
  delivered : List Conn
  closed : List Conn
  deriving Repr, DecidableEq

/-- Embeds `Hub.BroadcastChatMessage` (and, with the identical loop body,
`Hub.BroadcastDeletion`): snapshot the room's connections, then attempt one
write per connection; on failure close the connection, remove it from the
registry and call `publishWSError` on the already-updated hub, in exactly
the source's order.  `writeOk` tells whether `WriteMessage` succeeds on a
given connection and `reason` is the error it returns otherwise. -/
def BroadcastChatMessage (h : Hub) (events : List WSErrorEvent) (chatID : Int)
    (writeOk : Conn → Bool) (reason : Conn → String) (now : Int) : BroadcastResult :=
  let conns := (mapLookup h.chatRooms chatID).getD []
  conns.foldl
    (fun acc conn =>
      if writeOk conn then { acc with delivered := acc.delivered ++ [conn] }
      else
        let hub2 := RemoveChatClient acc.hub chatID conn
        { hub := hub2
          events := publishWSError hub2 acc.events "chat" chatID conn (reason conn) now
          delivered := acc.delivered
          closed := acc.closed ++ [conn] })
    { hub := h, events := events, delivered := [], closed := [] }

/-! ## Registry operation sequences (for the registry invariant) -/

/-- One registry mutation. -/
inductive RegOp
  | addChat (chatID : Int) (conn : Conn) (info : ConnInfo)
  | removeChat (chatID : Int) (conn : Conn)
  | addGroup (groupID : Int) (conn : Conn) (info : ConnInfo)
  | removeGroup (groupID : Int) (conn : Conn)

/-- Apply one registry mutation. -/
def applyRegOp (h : Hub) : RegOp → Hub
  | .addChat chatID conn info => AddChatClient h chatID conn info
  | .removeChat chatID conn => RemoveChatClient h chatID conn
  | .addGroup groupID conn info => AddGroupClient h groupID conn info
  | .removeGroup groupID conn => RemoveGroupClient h groupID conn

/-- Apply a sequence of registry mutations. -/
def applyRegOps (h : Hub) (ops : List RegOp) : Hub :=
  ops.foldl applyRegOp h

/-- Attach each connection of `cs` to chat room `k`. -/
def attachAllChat (h : Hub) (k : Int) (cs : List Conn) (infoOf : Conn → ConnInfo) : Hub :=
  cs.foldl (fun h2 c => AddChatClient h2 k c (infoOf c)) h

/-- Detach each connection of `cs` from chat room `k`. -/
def detachAllChat (h : Hub) (k : Int) (cs : List Conn) : Hub :=
  cs.foldl (fun h2 c => RemoveChatClient h2 k c) h

/-- Attach each connection of `cs` to group room `k`. -/
def attachAllGroup (h : Hub) (k : Int) (cs : List Conn) (infoOf : Conn → ConnInfo) : Hub :=
  cs.foldl (fun h2 c => AddGroupClient h2 k c (infoOf c)) h

/-- Detach each connection of `cs` from group room `k`. -/
def detachAllGroup (h : Hub) (k : Int) (cs : List Conn) : Hub :=
  cs.foldl (fun h2 c => RemoveGroupClient h2 k c) h

/-- The room list induced by a conn-info map (used to state that the room
maps and the metadata maps stay in lockstep). -/
def roomsOfInfos (infos : List (Int × List (Conn × ConnInfo))) : List (Int × List Conn) :=
  infos.map (fun e => (e.1, e.2.map (fun p => p.1)))

/-- Well-formedness of one hub namespace: every registered room holds a
non-empty duplicate-free connection set, room keys are unique, and the
room map is the key projection of the conn-info map. -/
def nsWF (rooms : List (Int × List Conn)) (infos : List (Int × List (Conn × ConnInfo))) :
    Prop :=
  (∀ e ∈ rooms, e.2 ≠ [] ∧ e.2.Nodup) ∧
  (rooms.map (fun e => e.1)).Nodup ∧
  rooms = roomsOfInfos infos

/-- Well-formedness of the whole hub. -/
def HubWF (h : Hub) : Prop :=
  nsWF h.chatRooms h.chatConnInfo ∧ nsWF h.groupRooms h.groupConnInfo

/-! ## Websocket open path (internal/ws/chat_ws.go)

`Handle` is embedded over the request data it reads (the parsed `:chat_id`
route parameter, the `Authorization` header, the `token` query parameter)
and oracles for its three external effects: the auth authority
(`ValidateToken`), the membership check (`IsParticipant`, `none` modelling
a repository error) and the protocol upgrade.  The ordered trace records
which external steps were reached. -/

structure WSRequest where
  chatIDParam : Option Int
  authHeader : String
  tokenQuery : String

structure WSOracles where
  validate : String → Option Int
  isParticipant : Int → Int → Option Bool
  upgradeOk : Bool

/-- Result of the websocket open path. -/
inductive WSOutcome
  | badRequest
  | unauthorized
  | forbidden
  | silentAbort
  | connected (userID : Int)
  deriving Repr, DecidableEq

/-- External steps taken by `Handle`, in order. -/
inductive WSStep
  | validateCall (token : String)
  | membershipCheck (chatID userID : Int)
  | handshake
  | attach (chatID userID : Int)
  deriving Repr, DecidableEq

/-- The credential selection of `Handle`: the `Authorization` header, or —
when that header is empty — the `token` query parameter prefixed with
`"Bearer "` (left empty when both are empty). -/
def credentialOf (authHeader tokenQuery : String) : String :=
  if authHeader = "" then
    if tokenQuery = "" then "" else "Bearer " ++ tokenQuery
  else authHeader

/-- Go `strings.Split(s, " ")`: cut the string at every space; the empty
string yields `[""]`. -/
def splitOnSpaceAux : List Char → List Char → List String
  | [], acc => [String.mk acc.reverse]
  | ch :: rest, acc =>
    if ch = ' ' then String.mk acc.reverse :: splitOnSpaceAux rest []
    else splitOnSpaceAux rest (ch :: acc)

/-- Entry point of the space-splitting helper. -/
def splitOnSpace (s : String) : List String := splitOnSpaceAux s.data []

/-- Embeds `validateToken`: split the credential on spaces; exactly two
parts call the auth authority on the second part, anything else is an
error without any external call. -/
def validateToken (validate : String → Option Int) (cred : String) :
    Option Int × List WSStep :=
  let parts := splitOnSpace cred
  if parts.length = 2 then
    (validate (parts.getD 1 ""), [WSStep.validateCall (parts.getD 1 "")])
  else
    (none, [])

/-- Embeds `ChatWebSocketHandler.Handle`: parse the chat id (400), resolve
the credential and validate it (401), check membership (403 on error or
non-membership), upgrade (silent abort on failure), then attach. -/
def wsHandle (req : WSRequest) (o : WSOracles) : WSOutcome × List WSStep :=
  match req.chatIDParam with
  | none => (.badRequest, [])
  | some chatID =>
    let vres := validateToken o.validate (credentialOf req.authHeader req.tokenQuery)
    match vres.1 with
    | none => (.unauthorized, vres.2)
    | some userID =>
      match o.isParticipant chatID userID with
      | none => (.forbidden, vres.2 ++ [WSStep.membershipCheck chatID userID])
      | some false => (.forbidden, vres.2 ++ [WSStep.membershipCheck chatID userID])
      | some true =>
        if o.upgradeOk then
          (.connected userID,
            vres.2 ++ [WSStep.membershipCheck chatID userID, WSStep.handshake,
              WSStep.attach chatID userID])
        else
          (.silentAbort,
            vres.2 ++ [WSStep.membershipCheck chatID userID, WSStep.handshake])

/-! Concrete states used by the witnesses. -/

/-- Concrete state used by the C3 witness. -/
def c3db : ChatDB :=
  { chats := [{ id := 5, user1ID := 1, user2ID := 2, createdAt := 0 }]
    visibility := []
    messages := [{ id := 9, chatID := 5, senderID := 1, content := "hi"
                   deletedBySender := false, deletedByReceiver := false
                   deletedForAll := false, createdAt := 0 }]
    nextChatID := 6, nextMsgID := 10, now := 1 }

/-- Concrete state used by the C4 witness. -/
def c4db : ChatDB :=
  { chats := [{ id := 5, user1ID := 1, user2ID := 2, createdAt := 0 }]
    visibility := []
    messages := [{ id := 9, chatID := 5, senderID := 1, content := "hi"
                   deletedBySender := false, deletedByReceiver := false
                   deletedForAll := false, createdAt := 0 }]
    nextChatID := 6, nextMsgID := 10, now := 1 }

/-- Concrete state used by the C6 witness. -/
def c6db : ChatDB :=
  { chats := [{ id := 5, user1ID := 1, user2ID := 2, createdAt := 0 }]
    visibility := []
    messages := []
    nextChatID := 6, nextMsgID := 1, now := 1 }

/-- Concrete state used by the C9 witness. -/
def c9db : ChatDB :=
  { chats := [{ id := 5, user1ID := 1, user2ID := 2, createdAt := 0 }]
    visibility := []
    messages := [{ id := 9, chatID := 5, senderID := 1, content := "hi"
                   deletedBySender := false, deletedByReceiver := false
                   deletedForAll := false, createdAt := 0 }]
    nextChatID := 6, nextMsgID := 10, now := 1 }

/-- Metadata of the healthy connection in the C2 scenario. -/
def c2info1 : ConnInfo :=
  { connID := "aa11", userID := 1, deviceID := "dev1", ip := "10.0.0.1"
    requestID := "r1", traceID := "t1", connectedAt := 0 }

/-- Metadata of the dead connection in the C2 scenario. -/
def c2info2 : ConnInfo :=
  { connID := "bb22", userID := 2, deviceID := "dev2", ip := "10.0.0.2"
    requestID := "r2", traceID := "t2", connectedAt := 3 }

/-- Chat room 5 with connections 1 (healthy) and 2 (dead). -/
def c2hub : Hub :=
  AddChatClient (AddChatClient emptyHub 5 1 c2info1) 5 2 c2info2

/-- Metadata used by the C5 witness. -/
def c5info : ConnInfo :=
  { connID := "cc33", userID := 3, deviceID := "dev3", ip := "10.0.0.3"
    requestID := "r3", traceID := "t3", connectedAt := 0 }

/-- Operation sequence used by the C5 witness. -/
def c5ops : List RegOp :=
  [RegOp.addChat 1 7 c5info, RegOp.addChat 1 8 c5info]

/-- Oracles used by the C10 witness. -/
def c10oracle : WSOracles :=
  { validate := fun t => if t = "tok" then some 42 else none
    isParticipant := fun _ _ => some true
    upgradeOk := true }

end ChatService

namespace ChatService

/-! ## Claim C1 -/

theorem mem_getChatMessagesForUser (msgs : List Message) (c u : Int) (m : Message) :
    m ∈ getChatMessagesForUser msgs c u ↔ m ∈ msgs ∧ chatMsgRowPred c u m = true := by
  unfold getChatMessagesForUser
  rw [(List.perm_insertionSort createdAtLE _).mem_iff, List.mem_filter]

theorem chatMsgRowPred_iff (c u : Int) (m : Message) :
    chatMsgRowPred c u m = true ↔
      m.chatID = c ∧ m.deletedForAll = false ∧
        ¬(u = m.senderID ∧ m.deletedBySender = true) ∧
        ¬(u ≠ m.senderID ∧ m.deletedByReceiver = true) := by
  obtain ⟨i, cid, sid, cont, dbs, dbr, dfa, ca⟩ := m
  by_cases h : u = sid
  · subst h
    cases dbs <;> cases dbr <;> cases dfa <;> simp [chatMsgRowPred]
  · have h' : sid ≠ u := fun e => h e.symm
    cases dbs <;> cases dbr <;> cases dfa <;> simp [chatMsgRowPred, h, h']

/-- C1: `GetChatMessagesForUser c u` returns exactly the stored messages of
chat `c` that are visible to `u` (not deleted for all, not deleted by `u`'s
side), in ascending `createdAt` order; `ListGroupMessages` returns exactly
the group messages with `deletedForAll` false in the same order. -/
theorem getChatMessagesForUser_visibility_and_order
    (msgs : List Message) (gmsgs : List GroupMessage) (c u g : Int) :
    (∀ m : Message,
        m ∈ getChatMessagesForUser msgs c u ↔
          m ∈ msgs ∧ m.chatID = c ∧ m.deletedForAll = false ∧
            ¬(u = m.senderID ∧ m.deletedBySender = true) ∧
            ¬(u ≠ m.senderID ∧ m.deletedByReceiver = true)) ∧
      (getChatMessagesForUser msgs c u).Sorted createdAtLE ∧
      (∀ m : GroupMessage,
          m ∈ listGroupMessages gmsgs g ↔
            m ∈ gmsgs ∧ m.groupID = g ∧ m.deletedForAll = false) ∧
      (listGroupMessages gmsgs g).Sorted gCreatedAtLE := by
  refine ⟨?_, ?_, ?_, ?_⟩
  · intro m
    rw [mem_getChatMessagesForUser, chatMsgRowPred_iff]
  · exact List.sorted_insertionSort createdAtLE _
  · intro m
    unfold listGroupMessages
    rw [(List.perm_insertionSort gCreatedAtLE _).mem_iff, List.mem_filter]
    simp [and_assoc]
  · exact List.sorted_insertionSort gCreatedAtLE _

/-! ## Claim C3 -/

theorem post_trace_cases (db : ChatDB) (cid uid : Int) (content : String) (pf : Bool) :
    (postChatMessage db cid uid content pf).2.2 = [] ∨
      (pf = false ∧ (postChatMessage db cid uid content pf).1 = .created ∧
        ∃ chat, getChat db cid = some chat ∧
          (postChatMessage db cid uid content pf).2.2 =
            [Effect.persistMessage (createChatMessage db cid uid content).1,
             Effect.unhideChat cid chat.user1ID,
             Effect.unhideChat cid chat.user2ID,
             Effect.broadcastMessage cid (createChatMessage db cid uid content).1]) := by
  unfold postChatMessage
  cases hc : getChat db cid with
  | none => exact Or.inl rfl
  | some chat =>
    cases hp : isChatParticipant chat uid
    · simp [hp]
    · by_cases hcnt : content = ""
      · simp [hp, hcnt]
      · cases pf
        · exact Or.inr ⟨rfl, by simp [hp, hcnt], chat, rfl, by simp [hp, hcnt]⟩
        · simp [hp, hcnt]

theorem dfa_trace_cases (db : ChatDB) (cid mid uid : Int) (pf : Bool) :
    (deleteMessageForAllHandler db cid mid uid pf).2.2 = [] ∨
      (pf = false ∧ (deleteMessageForAllHandler db cid mid uid pf).1 = .noContent ∧
        (deleteMessageForAllHandler db cid mid uid pf).2.2 =
          [Effect.persistDeleteForAll mid uid, Effect.broadcastDeletion cid mid]) := by
  unfold deleteMessageForAllHandler
  cases hc : getChat db cid with
  | none => exact Or.inl rfl
  | some chat =>
    cases hp : isChatParticipant chat uid
    · simp [hp]
    · cases hm : getMessage db mid with
      | none => simp [hp]
      | some msg =>
        cases hb : msg.chatID != cid
        · cases hs : msg.senderID != uid
          · cases pf
            · cases hr : deleteMessageForAllRepo db mid uid with
              | error e => simp [hp, hb, hs, hr]
              | ok db' => exact Or.inr ⟨rfl, by simp [hp, hb, hs, hr], by simp [hp, hb, hs, hr]⟩
            · simp [hp, hb, hs]
          · simp [hp, hb, hs]
        · simp [hp, hb]

theorem post_persist_fail_status (db : ChatDB) (cid uid : Int) (content : String)
    (chat : Chat) (hc : getChat db cid = some chat)
    (hp : isChatParticipant chat uid = true) (hcnt : content ≠ "") :
    (postChatMessage db cid uid content true).1 = .internalError := by
  unfold postChatMessage
  rw [hc]
  simp [hp, hcnt]

theorem dfa_persist_fail_status (db : ChatDB) (cid mid uid : Int)
    (chat : Chat) (msg : Message) (hc : getChat db cid = some chat)
    (hp : isChatParticipant chat uid = true) (hm : getMessage db mid = some msg)
    (hb : msg.chatID = cid) (hs : msg.senderID = uid) :
    (deleteMessageForAllHandler db cid mid uid true).1 = .internalError := by
  unfold deleteMessageForAllHandler
  rw [hc]
  simp [hp, hm, hb, hs]

/-- C3: for `PostChatMessage` and `DeleteMessageForAll`, a persistence
failure aborts the operation with the storage error and no broadcast
happens (the effect trace is empty); whenever a broadcast effect occurs,
the successful persistence effect for the very same payload precedes it in
the trace. -/
theorem persist_then_broadcast_order (db : ChatDB) (chatID messageID userID : Int)
    (content : String) (pf : Bool) :
    ((postChatMessage db chatID userID content true).2.2 = [] ∧
      (deleteMessageForAllHandler db chatID messageID userID true).2.2 = []) ∧
    (∀ chat, getChat db chatID = some chat → isChatParticipant chat userID = true →
      content ≠ "" → (postChatMessage db chatID userID content true).1 = .internalError) ∧
    (∀ chat msg, getChat db chatID = some chat → isChatParticipant chat userID = true →
      getMessage db messageID = some msg → msg.chatID = chatID → msg.senderID = userID →
      (deleteMessageForAllHandler db chatID messageID userID true).1 = .internalError) ∧
    (∀ c m, Effect.broadcastMessage c m ∈ (postChatMessage db chatID userID content pf).2.2 →
      [Effect.persistMessage m, Effect.broadcastMessage c m].Sublist
        (postChatMessage db chatID userID content pf).2.2) ∧
    (∀ c mid, Effect.broadcastDeletion c mid ∈
        (deleteMessageForAllHandler db chatID messageID userID pf).2.2 →
      [Effect.persistDeleteForAll messageID userID, Effect.broadcastDeletion c mid].Sublist
        (deleteMessageForAllHandler db chatID messageID userID pf).2.2) := by
  refine ⟨⟨?_, ?_⟩, ?_, ?_, ?_, ?_⟩
  · rcases post_trace_cases db chatID userID content true with h | ⟨h, _⟩
    · exact h
    · exact absurd h (by decide)
  · rcases dfa_trace_cases db chatID messageID userID true with h | ⟨h, _⟩
    · exact h
    · exact absurd h (by decide)
  · intro chat hc hp hcnt
    exact post_persist_fail_status db chatID userID content chat hc hp hcnt
  · intro chat msg hc hp hm hb hs
    exact dfa_persist_fail_status db chatID messageID userID chat msg hc hp hm hb hs
  · intro c m hmem
    rcases post_trace_cases db chatID userID content pf with h | ⟨_, _, chat, _, h⟩
    · rw [h] at hmem; exact absurd hmem (List.not_mem_nil _)
    · rw [h] at hmem ⊢
      simp only [List.mem_cons, List.not_mem_nil, or_false] at hmem
      rcases hmem with h1 | h1 | h1 | h1
      · exact absurd h1 (by simp)
      · exact absurd h1 (by simp)
      · exact absurd h1 (by simp)
      · obtain ⟨hcid, hm⟩ : c = chatID ∧ m = (createChatMessage db chatID userID content).1 := by
          injection h1 with h1a h1b; exact ⟨h1a, h1b⟩
        subst hcid; subst hm
        exact List.Sublist.cons₂ _ (List.Sublist.cons _ (List.Sublist.cons _
          (List.Sublist.refl _)))
  · intro c mid hmem
    rcases dfa_trace_cases db chatID messageID userID pf with h | ⟨_, _, h⟩
    · rw [h] at hmem; exact absurd hmem (List.not_mem_nil _)
    · rw [h] at hmem ⊢
      simp only [List.mem_cons, List.not_mem_nil, or_false] at hmem
      rcases hmem with h1 | h1
      · exact absurd h1 (by simp)
      · obtain ⟨hcid, hm⟩ : c = chatID ∧ mid = messageID := by
          injection h1 with h1a h1b; exact ⟨h1a, h1b⟩
        subst hcid; subst hm
        exact List.Sublist.refl _

theorem persist_then_broadcast_order_witness :
    (postChatMessage c3db 5 1 "yo" true).2.2 = [] ∧
      (deleteMessageForAllHandler c3db 5 9 1 true).2.2 = [] ∧
      (postChatMessage c3db 5 1 "yo" true).1 = HStatus.internalError ∧
      (deleteMessageForAllHandler c3db 5 9 1 true).1 = HStatus.internalError := by
  have h := persist_then_broadcast_order c3db 5 9 1 "yo" true
  refine ⟨h.1.1, h.1.2, ?_, ?_⟩
  · exact h.2.1 { id := 5, user1ID := 1, user2ID := 2, createdAt := 0 } (by decide) (by decide)
      (by decide)
  · exact h.2.2.1 { id := 5, user1ID := 1, user2ID := 2, createdAt := 0 }
      { id := 9, chatID := 5, senderID := 1, content := "hi", deletedBySender := false
        deletedByReceiver := false, deletedForAll := false, createdAt := 0 }
      (by decide) (by decide) (by decide) (by decide) (by decide)

/-! ## Claim C4 -/

/-- C4: delete-for-all attempted by an actor who is not the message's
sender answers `Forbidden`, leaves the whole database (hence every flag and
identity field of the message) unchanged, and performs no effect. -/
theorem delete_for_all_non_sender_forbidden (db : ChatDB) (chatID messageID userID : Int)
    (pf : Bool) (chat : Chat) (msg : Message)
    (hc : getChat db chatID = some chat)
    (hm : getMessage db messageID = some msg)
    (hbelongs : msg.chatID = chatID)
    (hns : userID ≠ msg.senderID) :
    deleteMessageForAllHandler db chatID messageID userID pf = (.forbidden, db, []) := by
  unfold deleteMessageForAllHandler
  rw [hc]
  cases hp : isChatParticipant chat userID
  · simp [hp]
  · have hs : (msg.senderID != userID) = true := by
      simp only [bne_iff_ne, ne_eq]
      exact fun e => hns e.symm
    simp [hp, hm, hbelongs, hs]

theorem delete_for_all_non_sender_forbidden_witness :
    deleteMessageForAllHandler c4db 5 9 2 false = (.forbidden, c4db, []) :=
  delete_for_all_non_sender_forbidden c4db 5 9 2 false
    { id := 5, user1ID := 1, user2ID := 2, createdAt := 0 }
    { id := 9, chatID := 5, senderID := 1, content := "hi", deletedBySender := false
      deletedByReceiver := false, deletedForAll := false, createdAt := 0 }
    (by decide) (by decide) (by decide) (by decide)

/-! ## Claim C9 -/

/-- C9: `SoftDeleteMessageForUser` flips exactly the flag selected by
`isSender` on the targeted message, leaving its identity, content, creation
time, the other two flags, and every other message unchanged; and
`DeleteMessageForMe` never produces a broadcast effect. -/
theorem soft_delete_single_flag_frame (db : ChatDB) (messageID : Int) (isSender : Bool) :
    List.Forall₂ (fun m m' =>
        m'.id = m.id ∧ m'.chatID = m.chatID ∧ m'.senderID = m.senderID ∧
        m'.content = m.content ∧ m'.createdAt = m.createdAt ∧
        (m.id ≠ messageID → m' = m) ∧
        (m.id = messageID →
          if isSender then
            m'.deletedBySender = true ∧ m'.deletedByReceiver = m.deletedByReceiver ∧
              m'.deletedForAll = m.deletedForAll
          else
            m'.deletedByReceiver = true ∧ m'.deletedBySender = m.deletedBySender ∧
              m'.deletedForAll = m.deletedForAll))
      db.messages (softDeleteMessageForUser db messageID isSender).messages ∧
    (∀ chatID userID,
      ∀ e ∈ (deleteMessageForMe db chatID messageID userID).2.2, e.isBroadcast = false) := by
  constructor
  · unfold softDeleteMessageForUser
    simp only
    rw [List.forall₂_map_right_iff, List.forall₂_same]
    intro m _
    by_cases h : m.id = messageID
    · cases isSender <;> simp [h]
    · simp [h]
  · intro chatID userID e he
    revert he
    unfold deleteMessageForMe
    cases hc : getChat db chatID with
    | none => intro he; exact absurd he (List.not_mem_nil _)
    | some chat =>
      cases hp : isChatParticipant chat userID
      · simp [hp]
      · cases hm : getMessage db messageID with
        | none => simp [hp]
        | some msg =>
          cases hb : msg.chatID != chatID
          · cases hs : msg.senderID == userID <;>
              · simp [hp, hb, hs]
                intro he
                rw [he]
                rfl
          · simp [hp, hb]

/-! ## Claim C7 -/

theorem find?_chat_pair (chats : List Chat) (u1 u2 : Int)
    (hw : ∀ c ∈ chats, ∀ c' ∈ chats,
      c.user1ID = c'.user1ID → c.user2ID = c'.user2ID → c = c')
    (c : Chat) (hc : c ∈ chats) (h1 : c.user1ID = u1) (h2 : c.user2ID = u2) :
    chats.find? (fun c' => c'.user1ID == u1 && c'.user2ID == u2) = some c := by
  cases hf : chats.find? (fun c' => c'.user1ID == u1 && c'.user2ID == u2) with
  | none =>
    rw [List.find?_eq_none] at hf
    exact absurd (by simp [h1, h2]) (hf c hc)
  | some m =>
    have hm := List.find?_some hf
    have hmem := List.mem_of_find?_eq_some hf
    simp only [Bool.and_eq_true, beq_iff_eq] at hm
    have heq : m = c := hw m hmem c hc (hm.1.trans h1.symm) (hm.2.trans h2.symm)
    rw [heq]

theorem createOrGetChat_found (db : ChatDB) (a b : Int) (hne : ¬(a = b)) (c : Chat)
    (hf : db.chats.find? (fun c' => c'.user1ID == min a b && c'.user2ID == max a b)
      = some c) :
    createOrGetChat db a b =
      .ok (c, unhideChatForUser (unhideChatForUser db c.id a) c.id b) := by
  unfold createOrGetChat
  rw [if_neg hne]
  simp only [hf]

/-- C7: `CreateOrGetChat` is symmetric and idempotent — for distinct users
`a` and `b` it returns a chat whose `user1ID` is the smaller id, keeps the
at-most-one-row-per-unordered-pair invariant, and every further call with
`(a, b)` or `(b, a)` returns the very same chat row without adding any chat
row. -/
theorem create_or_get_chat_canonical (db : ChatDB) (a b : Int)
    (hw : chatsWF db.chats) (hne : a ≠ b) :
    ∃ c1 db1, createOrGetChat db a b = .ok (c1, db1) ∧
      c1.user1ID = min a b ∧ c1.user2ID = max a b ∧ c1 ∈ db1.chats ∧
      chatsWF db1.chats ∧
      (∀ db2 : ChatDB, db2.chats = db1.chats →
        (∃ d, createOrGetChat db2 a b = .ok (c1, d) ∧ d.chats = db2.chats) ∧
        (∃ d, createOrGetChat db2 b a = .ok (c1, d) ∧ d.chats = db2.chats)) := by
  cases hf : db.chats.find? (fun c' => c'.user1ID == min a b && c'.user2ID == max a b) with
  | some c =>
    have hm := List.find?_some hf
    simp only [Bool.and_eq_true, beq_iff_eq] at hm
    have hcmem : c ∈ db.chats := List.mem_of_find?_eq_some hf
    refine ⟨c, unhideChatForUser (unhideChatForUser db c.id a) c.id b,
      createOrGetChat_found db a b hne c hf, hm.1, hm.2, hcmem, hw, ?_⟩
    intro db2 hdb2
    constructor
    · refine ⟨unhideChatForUser (unhideChatForUser db2 c.id a) c.id b, ?_, rfl⟩
      apply createOrGetChat_found db2 a b hne c
      rw [hdb2]
      exact hf
    · refine ⟨unhideChatForUser (unhideChatForUser db2 c.id b) c.id a, ?_, rfl⟩
      apply createOrGetChat_found db2 b a (fun e => hne e.symm) c
      rw [hdb2]
      rw [min_comm b a, max_comm b a]
      exact hf
  | none =>
    set c : Chat :=
      { id := db.nextChatID, user1ID := min a b, user2ID := max a b, createdAt := db.now }
      with hcdef
    have hcall : createOrGetChat db a b =
        .ok (c, unhideChatForUser (unhideChatForUser
          { db with chats := db.chats ++ [c], nextChatID := db.nextChatID + 1 }
          c.id a) c.id b) := by
      unfold createOrGetChat
      rw [if_neg hne]
      simp only [hf]
    have hfnone := hf
    rw [List.find?_eq_none] at hfnone
    have hw1 : chatsWF (db.chats ++ [c]) := by
      constructor
      · intro x hx
        rcases List.mem_append.mp hx with h | h
        · exact hw.1 x h
        · rw [List.mem_singleton.mp h]
          exact min_lt_max.mpr hne
      · intro x hx y hy h1 h2
        rcases List.mem_append.mp hx with hxm | hxm <;>
          rcases List.mem_append.mp hy with hym | hym
        · exact hw.2 x hxm y hym h1 h2
        · exfalso
          rw [List.mem_singleton.mp hym] at h1 h2
          exact hfnone x hxm (by simp [h1, h2])
        · exfalso
          rw [List.mem_singleton.mp hxm] at h1 h2
          exact hfnone y hym (by simp [h1.symm, h2.symm])
        · rw [List.mem_singleton.mp hxm, List.mem_singleton.mp hym]
    refine ⟨c, _, hcall, rfl, rfl, ?_, ?_, ?_⟩
    · show c ∈ db.chats ++ [c]
      exact List.mem_append.mpr (Or.inr (List.mem_singleton.mpr rfl))
    · show chatsWF (db.chats ++ [c])
      exact hw1
    · intro db2 hdb2
      have hdb2 : db2.chats = db.chats ++ [c] := hdb2
      have hfind2 : db2.chats.find?
          (fun c' => c'.user1ID == min a b && c'.user2ID == max a b) = some c := by
        rw [hdb2]
        exact find?_chat_pair _ _ _ hw1.2 c
          (List.mem_append.mpr (Or.inr (List.mem_singleton.mpr rfl))) rfl rfl
      constructor
      · exact ⟨unhideChatForUser (unhideChatForUser db2 c.id a) c.id b,
          createOrGetChat_found db2 a b hne c hfind2, rfl⟩
      · refine ⟨unhideChatForUser (unhideChatForUser db2 c.id b) c.id a,
          createOrGetChat_found db2 b a (fun e => hne e.symm) c ?_, rfl⟩
        rw [min_comm b a, max_comm b a]
        exact hfind2

theorem create_or_get_chat_canonical_witness :
    ∃ c1 db1,
      createOrGetChat
          { chats := [], visibility := [], messages := []
            nextChatID := 1, nextMsgID := 1, now := 0 } 2 1 = .ok (c1, db1) ∧
        c1.user1ID = 1 ∧ c1.user2ID = 2 := by
  obtain ⟨c1, db1, h1, h2, h3, _⟩ :=
    create_or_get_chat_canonical
      { chats := [], visibility := [], messages := []
        nextChatID := 1, nextMsgID := 1, now := 0 } 2 1
      (by simp [chatsWF]) (by decide)
  refine ⟨c1, db1, h1, ?_, ?_⟩
  · rw [h2]; decide
  · rw [h3]; decide

/-! ## Visibility-table lemmas (shared by C6 and C7) -/

theorem find?_append_none {α : Type} (p : α → Bool) (l1 l2 : List α)
    (h : l1.find? p = none) : (l1 ++ l2).find? p = l2.find? p := by
  induction l1 with
  | nil => rfl
  | cons a t ih =>
    cases hp : p a
    · rw [List.cons_append, List.find?_cons_of_neg _ (by simp [hp]),
        ih (by rwa [List.find?_cons_of_neg _ (by simp [hp])] at h)]
    · rw [List.find?_cons_of_pos _ hp] at h
      exact absurd h (by simp)

theorem find?_append_some {α : Type} (p : α → Bool) (l1 l2 : List α) (a : α)
    (h : l1.find? p = some a) : (l1 ++ l2).find? p = some a := by
  induction l1 with
  | nil => exact absurd h (by simp)
  | cons b t ih =>
    cases hp : p b
    · rw [List.find?_cons_of_neg _ (by simp [hp])] at h
      rw [List.cons_append, List.find?_cons_of_neg _ (by simp [hp]), ih h]
    · rw [List.find?_cons_of_pos _ hp] at h
      rw [List.cons_append, List.find?_cons_of_pos _ hp]
      exact h

theorem find?_map_upsert (vis : List ((Int × Int) × Bool)) (c u : Int) (hb : Bool) :
    (vis.map (fun e => if visKeyMatch c u e then (e.1, hb) else e)).find? (visKeyMatch c u)
      = (vis.find? (visKeyMatch c u)).map (fun e => (e.1, hb)) := by
  induction vis with
  | nil => rfl
  | cons e t ih =>
    cases hm : visKeyMatch c u e
    · rw [List.map_cons, if_neg (by simp [hm]),
        List.find?_cons_of_neg _ (by simp [hm]),
        List.find?_cons_of_neg _ (by simp [hm]), ih]
    · have hm' : visKeyMatch c u (e.1, hb) = true := by
        simpa [visKeyMatch] using hm
      rw [List.map_cons, if_pos (by simp [hm]),
        List.find?_cons_of_pos _ hm',
        List.find?_cons_of_pos _ hm]
      rfl

theorem find?_map_upsert_ne (vis : List ((Int × Int) × Bool)) (c u c' u' : Int) (hb : Bool)
    (hk : ¬(c' = c ∧ u' = u)) :
    (vis.map (fun e => if visKeyMatch c u e then (e.1, hb) else e)).find? (visKeyMatch c' u')
      = vis.find? (visKeyMatch c' u') := by
  induction vis with
  | nil => rfl
  | cons e t ih =>
    cases hm : visKeyMatch c u e
    · cases hm' : visKeyMatch c' u' e
      · rw [List.map_cons, if_neg (by simp [hm]),
          List.find?_cons_of_neg _ (by simp [hm']),
          List.find?_cons_of_neg _ (by simp [hm']), ih]
      · rw [List.map_cons, if_neg (by simp [hm]),
          List.find?_cons_of_pos _ hm',
          List.find?_cons_of_pos _ hm']
    · cases hm' : visKeyMatch c' u' e
      · have h2 : visKeyMatch c' u' (e.1, hb) = false := by
          simpa [visKeyMatch] using hm'
        rw [List.map_cons, if_pos (by simp [hm]),
          List.find?_cons_of_neg _ (by simp [h2]),
          List.find?_cons_of_neg _ (by simp [hm']), ih]
      · exfalso
        apply hk
        simp only [visKeyMatch, Bool.and_eq_true, beq_iff_eq] at hm hm'
        exact ⟨hm'.1.symm.trans hm.1, hm'.2.symm.trans hm.2⟩

theorem visLookup_upsert_self (vis : List ((Int × Int) × Bool)) (c u : Int) (hb : Bool) :
    visLookup (visUpsert vis c u hb) c u = some hb := by
  unfold visUpsert
  cases ha : vis.any (visKeyMatch c u)
  · rw [if_neg (by simp [ha])]
    unfold visLookup
    have hnone : vis.find? (visKeyMatch c u) = none := by
      rw [List.find?_eq_none]
      intro x hx hpx
      have : vis.any (visKeyMatch c u) = true := List.any_eq_true.mpr ⟨x, hx, hpx⟩
      rw [ha] at this
      exact Bool.false_ne_true this
    rw [find?_append_none _ _ _ hnone]
    simp [visKeyMatch]
  · rw [if_pos rfl]
    unfold visLookup
    rw [find?_map_upsert]
    cases hf : vis.find? (visKeyMatch c u) with
    | none =>
      rw [List.find?_eq_none] at hf
      obtain ⟨x, hx, hpx⟩ := List.any_eq_true.mp ha
      exact absurd hpx (hf x hx)
    | some e => rfl

theorem visLookup_upsert_ne (vis : List ((Int × Int) × Bool)) (c u c' u' : Int) (hb : Bool)
    (hk : ¬(c' = c ∧ u' = u)) :
    visLookup (visUpsert vis c u hb) c' u' = visLookup vis c' u' := by
  unfold visUpsert
  cases ha : vis.any (visKeyMatch c u)
  · rw [if_neg (by simp [ha])]
    unfold visLookup
    cases hf : vis.find? (visKeyMatch c' u') with
    | none =>
      rw [find?_append_none _ _ _ hf]
      have : visKeyMatch c' u' ((c, u), hb) = false := by
        by_cases h1 : c = c'
        · have h2 : ¬(u = u') := fun h2 => hk ⟨h1.symm, h2.symm⟩
          simp [visKeyMatch, h1, h2]
        · simp [visKeyMatch, h1]
      rw [List.find?_cons_of_neg _ (by simp [this]), List.find?_nil]
    | some e => rw [find?_append_some _ _ _ _ hf]
  · rw [if_pos rfl]
    unfold visLookup
    rw [find?_map_upsert_ne _ _ _ _ _ _ hk]

theorem hideChatForUser_chats (db : ChatDB) (c u : Int) :
    (hideChatForUser db c u).chats = db.chats := rfl

theorem unhideChatForUser_chats (db : ChatDB) (c u : Int) :
    (unhideChatForUser db c u).chats = db.chats := rfl

theorem createChatMessage_chats (db : ChatDB) (c s : Int) (str : String) :
    (createChatMessage db c s str).2.chats = db.chats := rfl

theorem getChat_hide (db : ChatDB) (c u x : Int) :
    getChat (hideChatForUser db c u) x = getChat db x := rfl

theorem mem_listChats (db : ChatDB) (u : Int) (s : ChatSummary) :
    s ∈ listChats db u ↔
      ∃ c ∈ db.chats, listChatsRowPred db u c = true ∧
        s = { chatID := c.id
              friendID := if c.user1ID == u then c.user2ID else c.user1ID
              created := c.createdAt } := by
  unfold listChats
  rw [List.mem_map]
  constructor
  · rintro ⟨c, hmem, rfl⟩
    rw [(List.perm_insertionSort createdAtGE _).mem_iff, List.mem_filter] at hmem
    exact ⟨c, hmem.1, hmem.2, rfl⟩
  · rintro ⟨c, hmem, hpred, rfl⟩
    refine ⟨c, ?_, rfl⟩
    rw [(List.perm_insertionSort createdAtGE _).mem_iff, List.mem_filter]
    exact ⟨hmem, hpred⟩

/-! ## Claim C6 -/

theorem postChatMessage_success (db : ChatDB) (chatID uid : Int) (content : String)
    (chat : Chat) (hc : getChat db chatID = some chat)
    (hp : isChatParticipant chat uid = true) (hcnt : content ≠ "") :
    postChatMessage db chatID uid content false =
      (.created,
       unhideChatForUser
         (unhideChatForUser (createChatMessage db chatID uid content).2 chatID chat.user1ID)
         chatID chat.user2ID,
       [Effect.persistMessage (createChatMessage db chatID uid content).1,
        Effect.unhideChat chatID chat.user1ID,
        Effect.unhideChat chatID chat.user2ID,
        Effect.broadcastMessage chatID (createChatMessage db chatID uid content).1]) := by
  unfold postChatMessage
  rw [hc]
  simp [hp, hcnt]

/-- C6: hiding a chat removes it from the hiding user's chat list, and a
subsequent message sent by either participant makes the chat reappear in
both participants' chat lists. -/
theorem hide_then_send_revives (db : ChatDB) (chatID userID sender : Int)
    (content : String) (chat : Chat)
    (hc : getChat db chatID = some chat)
    (hp : isChatParticipant chat sender = true)
    (hcnt : content ≠ "") :
    (∀ s ∈ listChats (hideChatForUser db chatID userID) userID, s.chatID ≠ chatID) ∧
    (postChatMessage (hideChatForUser db chatID userID) chatID sender content false).1
        = .created ∧
    (∃ s ∈ listChats
        (postChatMessage (hideChatForUser db chatID userID) chatID sender content false).2.1
        chat.user1ID, s.chatID = chatID) ∧
    (∃ s ∈ listChats
        (postChatMessage (hideChatForUser db chatID userID) chatID sender content false).2.1
        chat.user2ID, s.chatID = chatID) := by
  have hc1 : getChat (hideChatForUser db chatID userID) chatID = some chat := hc
  have hsucc := postChatMessage_success (hideChatForUser db chatID userID) chatID sender
    content chat hc1 hp hcnt
  have hchatmem : chat ∈ db.chats := List.mem_of_find?_eq_some hc
  have hchatid : chat.id = chatID := by
    have := List.find?_some hc
    simpa using this
  refine ⟨?_, ?_, ?_, ?_⟩
  · intro s hs
    rw [mem_listChats] at hs
    obtain ⟨c, _, hpred, rfl⟩ := hs
    intro hcid
    simp only at hcid
    unfold listChatsRowPred at hpred
    rw [Bool.and_eq_true] at hpred
    have hvis := hpred.2
    unfold hideChatForUser at hvis
    simp only at hvis
    rw [hcid, visLookup_upsert_self] at hvis
    simp at hvis
  · rw [hsucc]
  · rw [hsucc]
    refine ⟨{ chatID := chat.id
              friendID := if chat.user1ID == chat.user1ID then chat.user2ID else chat.user1ID
              created := chat.createdAt }, ?_, by simpa using hchatid⟩
    rw [mem_listChats]
    refine ⟨chat, by simpa [unhideChatForUser_chats, createChatMessage_chats,
      hideChatForUser_chats] using hchatmem, ?_, rfl⟩
    unfold listChatsRowPred
    rw [Bool.and_eq_true]
    constructor
    · simp
    · have hlook :
          visLookup (unhideChatForUser
            (unhideChatForUser (createChatMessage (hideChatForUser db chatID userID)
              chatID sender content).2 chatID chat.user1ID)
            chatID chat.user2ID).visibility chat.id chat.user1ID = some false := by
        unfold unhideChatForUser
        simp only
        rw [hchatid]
        by_cases hu : chat.user1ID = chat.user2ID
        · rw [hu, visLookup_upsert_self]
        · rw [visLookup_upsert_ne _ _ _ _ _ _ (by simp [hu]), visLookup_upsert_self]
      rw [hlook]
      rfl
  · rw [hsucc]
    refine ⟨{ chatID := chat.id
              friendID := if chat.user1ID == chat.user2ID then chat.user2ID else chat.user1ID
              created := chat.createdAt }, ?_, by simpa using hchatid⟩
    rw [mem_listChats]
    refine ⟨chat, by simpa [unhideChatForUser_chats, createChatMessage_chats,
      hideChatForUser_chats] using hchatmem, ?_, rfl⟩
    unfold listChatsRowPred
    rw [Bool.and_eq_true]
    constructor
    · simp
    · have hlook :
          visLookup (unhideChatForUser
            (unhideChatForUser (createChatMessage (hideChatForUser db chatID userID)
              chatID sender content).2 chatID chat.user1ID)
            chatID chat.user2ID).visibility chat.id chat.user2ID = some false := by
        unfold unhideChatForUser
        simp only
        rw [hchatid, visLookup_upsert_self]
      rw [hlook]
      rfl

theorem hide_then_send_revives_witness :
    (∀ s ∈ listChats (hideChatForUser c6db 5 2) 2, s.chatID ≠ 5) ∧
      (∃ s ∈ listChats (postChatMessage (hideChatForUser c6db 5 2) 5 1 "hi" false).2.1 1,
        s.chatID = 5) ∧
      (∃ s ∈ listChats (postChatMessage (hideChatForUser c6db 5 2) 5 1 "hi" false).2.1 2,
        s.chatID = 5) := by
  have h := hide_then_send_revives c6db 5 2 1 "hi"
    { id := 5, user1ID := 1, user2ID := 2, createdAt := 0 }
    (by decide) (by decide) (by decide)
  exact ⟨h.1, h.2.2.1, h.2.2.2⟩

theorem soft_delete_single_flag_frame_witness :
    (softDeleteMessageForUser c9db 9 true).messages =
        [{ id := 9, chatID := 5, senderID := 1, content := "hi", deletedBySender := true
           deletedByReceiver := false, deletedForAll := false, createdAt := 0 }] ∧
      ∀ e ∈ (deleteMessageForMe c9db 5 9 2).2.2, e.isBroadcast = false := by
  have h := soft_delete_single_flag_frame c9db 9 true
  exact ⟨by decide, h.2 5 2⟩

/-! ## Claim C2 -/

/-- C2, evaluated on the room with one dead connection: the write failure
closes connection 2, removes it from the registry, and delivery proceeds to
connection 1 with nothing reported to the caller — but the emitted event
list stays empty: `BroadcastChatMessage` calls `RemoveChatClient` before
`publishWSError`, the metadata lookup inside `publishWSError` therefore
misses, and the `ws_error` event that should carry the connection's
metadata is silently dropped. -/
theorem broadcast_write_failure_emits_no_event :
    (BroadcastChatMessage c2hub [] 5 (fun c => c == 1)
        (fun _ => "write: broken pipe") 100).delivered = [1] ∧
    (BroadcastChatMessage c2hub [] 5 (fun c => c == 1)
        (fun _ => "write: broken pipe") 100).closed = [2] ∧
    (BroadcastChatMessage c2hub [] 5 (fun c => c == 1)
        (fun _ => "write: broken pipe") 100).hub.chatRooms = [(5, [1])] ∧
    getConnInfo (BroadcastChatMessage c2hub [] 5 (fun c => c == 1)
        (fun _ => "write: broken pipe") 100).hub "chat" 5 2 = none ∧
    (BroadcastChatMessage c2hub [] 5 (fun c => c == 1)
        (fun _ => "write: broken pipe") 100).events = [] := by
  refine ⟨?_, ?_, ?_, ?_, ?_⟩ <;> rfl

/-! ## Association-list lemmas for the hub registry (C5) -/

theorem mapLookup_mapUpdate_self {K A : Type} [DecidableEq K] (l : List (K × A)) (k : K)
    (v : A) : mapLookup (mapUpdate l k v) k = some v := by
  induction l with
  | nil => simp [mapUpdate, mapLookup]
  | cons e rest ih =>
    by_cases h : e.1 = k
    · simp [mapUpdate, mapLookup, h]
    · simp [mapUpdate, mapLookup, h, ih]

theorem mapUpdate_lookup_self {K A : Type} [DecidableEq K] (l : List (K × A)) (k : K)
    (v : A) (h : mapLookup l k = some v) : mapUpdate l k v = l := by
  induction l with
  | nil => exact absurd h (by simp [mapLookup])
  | cons e rest ih =>
    by_cases he : e.1 = k
    · rw [mapLookup, if_pos he] at h
      obtain rfl : e.2 = v := Option.some.inj h
      rw [mapUpdate, if_pos he, ← he]
    · rw [mapLookup, if_neg he] at h
      rw [mapUpdate, if_neg he, ih h]

theorem mapLookup_some_mem {K A : Type} [DecidableEq K] (l : List (K × A)) (k : K)
    (v : A) (h : mapLookup l k = some v) : (k, v) ∈ l := by
  induction l with
  | nil => exact absurd h (by simp [mapLookup])
  | cons e rest ih =>
    by_cases he : e.1 = k
    · rw [mapLookup, if_pos he] at h
      obtain rfl : e.2 = v := Option.some.inj h
      exact List.mem_cons.mpr (Or.inl (by rw [← he]))
    · rw [mapLookup, if_neg he] at h
      exact List.mem_cons.mpr (Or.inr (ih h))

theorem mapLookup_eq_none_iff {K A : Type} [DecidableEq K] (l : List (K × A)) (k : K) :
    mapLookup l k = none ↔ k ∉ l.map (fun e => e.1) := by
  induction l with
  | nil => simp [mapLookup]
  | cons e rest ih =>
    rw [mapLookup]
    by_cases he : e.1 = k
    · rw [if_pos he]
      simp [he]
    · rw [if_neg he, ih]
      simp only [List.map_cons, List.mem_cons]
      constructor
      · intro h
        push_neg
        exact ⟨fun hk => he hk.symm, h⟩
      · intro h
        push_neg at h
        exact h.2

theorem mapDelete_of_not_mem_keys {K A : Type} [DecidableEq K] (l : List (K × A)) (k : K)
    (h : k ∉ l.map (fun e => e.1)) : mapDelete l k = l := by
  induction l with
  | nil => rfl
  | cons e rest ih =>
    simp only [List.map_cons, List.mem_cons] at h
    push_neg at h
    rw [mapDelete, if_neg (fun he => h.1 he.symm), ih h.2]

theorem keys_mapDelete {K A : Type} [DecidableEq K] (l : List (K × A)) (k : K) :
    (mapDelete l k).map (fun e => e.1) = (l.map (fun e => e.1)).erase k := by
  induction l with
  | nil => rfl
  | cons e rest ih =>
    by_cases he : e.1 = k
    · rw [mapDelete, if_pos he, List.map_cons, he, List.erase_cons_head]
    · rw [mapDelete, if_neg he, List.map_cons, List.map_cons, ih, List.erase_cons]
      simp [he]

theorem keys_mapUpdate {K A : Type} [DecidableEq K] (l : List (K × A)) (k : K) (v : A) :
    (mapUpdate l k v).map (fun e => e.1) =
      if k ∈ l.map (fun e => e.1) then l.map (fun e => e.1)
      else l.map (fun e => e.1) ++ [k] := by
  induction l with
  | nil => simp [mapUpdate]
  | cons e rest ih =>
    by_cases he : e.1 = k
    · rw [mapUpdate, if_pos he]
      simp [he]
    · rw [mapUpdate, if_neg he]
      by_cases hk : k ∈ rest.map (fun e => e.1)
      · simp only [List.map_cons, ih, if_pos hk]
        rw [if_pos (List.mem_cons.mpr (Or.inr hk))]
      · have hnot : ¬ k ∈ e.1 :: rest.map (fun e => e.1) := by
          simp only [List.mem_cons]
          push_neg
          exact ⟨fun h => he h.symm, hk⟩
        simp only [List.map_cons, ih, if_neg hk, if_neg hnot]
        rw [List.cons_append]

theorem mapLookup_mapDelete_self {K A : Type} [DecidableEq K] (l : List (K × A)) (k : K)
    (hnd : (l.map (fun e => e.1)).Nodup) : mapLookup (mapDelete l k) k = none := by
  induction l with
  | nil => rfl
  | cons e rest ih =>
    rw [List.map_cons, List.nodup_cons] at hnd
    by_cases he : e.1 = k
    · rw [mapDelete, if_pos he, mapLookup_eq_none_iff]
      rw [he] at hnd
      exact hnd.1
    · rw [mapDelete, if_neg he, mapLookup, if_neg he]
      exact ih hnd.2

theorem mapUpdate_forall {K A : Type} [DecidableEq K] (l : List (K × A)) (k : K) (v : A)
    (P : K × A → Prop) (hl : ∀ e ∈ l, P e) (hkv : P (k, v)) :
    ∀ e ∈ mapUpdate l k v, P e := by
  induction l with
  | nil => simpa [mapUpdate] using hkv
  | cons e rest ih =>
    by_cases he : e.1 = k
    · rw [mapUpdate, if_pos he]
      intro x hx
      rcases List.mem_cons.mp hx with h | h
      · rw [h]; exact hkv
      · exact hl x (List.mem_cons.mpr (Or.inr h))
    · rw [mapUpdate, if_neg he]
      intro x hx
      rcases List.mem_cons.mp hx with h | h
      · rw [h]; exact hl e (List.mem_cons.mpr (Or.inl rfl))
      · exact ih (fun y hy => hl y (List.mem_cons.mpr (Or.inr hy))) x h

theorem mapDelete_subset {K A : Type} [DecidableEq K] (l : List (K × A)) (k : K) :
    ∀ e ∈ mapDelete l k, e ∈ l := by
  induction l with
  | nil => simp [mapDelete]
  | cons e rest ih =>
    by_cases he : e.1 = k
    · rw [mapDelete, if_pos he]
      intro x hx
      exact List.mem_cons.mpr (Or.inr hx)
    · rw [mapDelete, if_neg he]
      intro x hx
      rcases List.mem_cons.mp hx with h | h
      · exact List.mem_cons.mpr (Or.inl h)
      · exact List.mem_cons.mpr (Or.inr (ih x h))

theorem connInsert_ne_nil (s : List Conn) (c : Conn) : connInsert s c ≠ [] := by
  unfold connInsert
  by_cases hc : c ∈ s
  · rw [if_pos hc]
    exact List.ne_nil_of_mem hc
  · rw [if_neg hc]
    simp

theorem connInsert_nodup (s : List Conn) (c : Conn) (h : s.Nodup) :
    (connInsert s c).Nodup := by
  unfold connInsert
  by_cases hc : c ∈ s
  · rwa [if_pos hc]
  · rw [if_neg hc]
    rw [List.nodup_append]
    exact ⟨h, List.nodup_singleton c, fun a ha hb => hc ((List.mem_singleton.mp hb) ▸ ha)⟩

theorem mem_connInsert (s : List Conn) (c x : Conn) (h : x ∈ connInsert s c) :
    x ∈ s ∨ x = c := by
  unfold connInsert at h
  by_cases hc : c ∈ s
  · rw [if_pos hc] at h
    exact Or.inl h
  · rw [if_neg hc] at h
    rcases List.mem_append.mp h with h | h
    · exact Or.inl h
    · exact Or.inr (List.mem_singleton.mp h)

theorem roomsOfInfos_mapUpdate (infos : List (Int × List (Conn × ConnInfo))) (k : Int)
    (m : List (Conn × ConnInfo)) :
    roomsOfInfos (mapUpdate infos k m) =
      mapUpdate (roomsOfInfos infos) k (m.map (fun p => p.1)) := by
  induction infos with
  | nil => rfl
  | cons e rest ih =>
    by_cases he : e.1 = k
    · rw [mapUpdate, if_pos he]
      unfold roomsOfInfos
      rw [List.map_cons, List.map_cons, mapUpdate, if_pos he]
    · rw [mapUpdate, if_neg he]
      unfold roomsOfInfos
      rw [List.map_cons, List.map_cons, mapUpdate, if_neg he]
      unfold roomsOfInfos at ih
      rw [ih]

theorem roomsOfInfos_mapDelete (infos : List (Int × List (Conn × ConnInfo))) (k : Int) :
    roomsOfInfos (mapDelete infos k) = mapDelete (roomsOfInfos infos) k := by
  induction infos with
  | nil => rfl
  | cons e rest ih =>
    by_cases he : e.1 = k
    · rw [mapDelete, if_pos he]
      unfold roomsOfInfos
      rw [List.map_cons, mapDelete, if_pos he]
    · rw [mapDelete, if_neg he]
      unfold roomsOfInfos
      rw [List.map_cons, List.map_cons, mapDelete, if_neg he]
      unfold roomsOfInfos at ih
      rw [ih]

theorem mapLookup_roomsOfInfos (infos : List (Int × List (Conn × ConnInfo))) (k : Int) :
    mapLookup (roomsOfInfos infos) k = (mapLookup infos k).map (fun m => m.map (fun p => p.1)) := by
  induction infos with
  | nil => rfl
  | cons e rest ih =>
    by_cases he : e.1 = k
    · unfold roomsOfInfos
      rw [List.map_cons, mapLookup, mapLookup]
      simp [he]
    · unfold roomsOfInfos
      rw [List.map_cons, mapLookup, mapLookup]
      unfold roomsOfInfos at ih
      simp [he, ih]

theorem keys_roomsOfInfos (infos : List (Int × List (Conn × ConnInfo))) :
    (roomsOfInfos infos).map (fun e => e.1) = infos.map (fun e => e.1) := by
  unfold roomsOfInfos
  rw [List.map_map]
  rfl

theorem innerUpdate_keys (m : List (Conn × ConnInfo)) (c : Conn) (i : ConnInfo) :
    (mapUpdate m c i).map (fun p => p.1) = connInsert (m.map (fun p => p.1)) c := by
  induction m with
  | nil => simp [mapUpdate, connInsert]
  | cons p rest ih =>
    by_cases hp : p.1 = c
    · rw [mapUpdate, if_pos hp, List.map_cons, List.map_cons]
      unfold connInsert
      rw [if_pos (List.mem_cons.mpr (Or.inl hp.symm)), hp]
    · rw [mapUpdate, if_neg hp, List.map_cons, List.map_cons, ih]
      unfold connInsert
      by_cases hc : c ∈ rest.map (fun p => p.1)
      · rw [if_pos hc, if_pos (List.mem_cons.mpr (Or.inr hc))]
      · have : ¬ c ∈ p.1 :: rest.map (fun p => p.1) := by
          simp only [List.mem_cons]
          push_neg
          exact ⟨fun h => hp h.symm, hc⟩
        rw [if_neg hc, if_neg this, List.cons_append]

theorem innerDelete_keys (m : List (Conn × ConnInfo)) (c : Conn) :
    (mapDelete m c).map (fun p => p.1) = (m.map (fun p => p.1)).erase c :=
  keys_mapDelete m c

/-! ## Hub namespace lemmas (C5) -/

theorem roomsAdd_lookup_self (r : List (Int × List Conn)) (k : Int) (c : Conn) :
    mapLookup (roomsAdd r k c) k = some (connInsert ((mapLookup r k).getD []) c) :=
  mapLookup_mapUpdate_self r k _

theorem getD_map_keys (i : List (Int × List (Conn × ConnInfo))) (k : Int) :
    ((mapLookup i k).map (fun m => m.map (fun p => p.1))).getD [] =
      ((mapLookup i k).getD []).map (fun p => p.1) := by
  cases mapLookup i k <;> rfl

theorem mem_keys_of_lookup_some {K A : Type} [DecidableEq K] (l : List (K × A)) (k : K)
    (v : A) (h : mapLookup l k = some v) : k ∈ l.map (fun e => e.1) := by
  by_contra hk
  rw [← mapLookup_eq_none_iff] at hk
  rw [h] at hk
  exact Option.some_ne_none v hk

theorem nsWF_add (r : List (Int × List Conn)) (i : List (Int × List (Conn × ConnInfo)))
    (k : Int) (c : Conn) (inf : ConnInfo) (hw : nsWF r i) :
    nsWF (roomsAdd r k c) (infosAdd i k c inf) := by
  obtain ⟨hent, hkeys, hlock⟩ := hw
  have hsnodup : ((mapLookup r k).getD []).Nodup := by
    cases hl : mapLookup r k with
    | none => simp
    | some s => exact (hent (k, s) (mapLookup_some_mem r k s hl)).2
  refine ⟨?_, ?_, ?_⟩
  · exact mapUpdate_forall r k _ _ hent
      ⟨connInsert_ne_nil _ c, connInsert_nodup _ c hsnodup⟩
  · unfold roomsAdd
    rw [keys_mapUpdate]
    by_cases hk : k ∈ r.map (fun e => e.1)
    · rwa [if_pos hk]
    · rw [if_neg hk, List.nodup_append]
      exact ⟨hkeys, List.nodup_singleton k,
        fun a ha hb => hk ((List.mem_singleton.mp hb) ▸ ha)⟩
  · unfold roomsAdd infosAdd
    rw [roomsOfInfos_mapUpdate, innerUpdate_keys, hlock]
    have : ((mapLookup i k).getD []).map (fun p => p.1)
        = (mapLookup (roomsOfInfos i) k).getD [] := by
      rw [mapLookup_roomsOfInfos, getD_map_keys]
    rw [this]

theorem map_fst_eq_nil_iff (m : List (Conn × ConnInfo)) :
    m.map (fun p => p.1) = [] ↔ m = [] := by
  cases m <;> simp

theorem nsWF_remove (r : List (Int × List Conn)) (i : List (Int × List (Conn × ConnInfo)))
    (k : Int) (c : Conn) (hw : nsWF r i) :
    nsWF (roomsRemove r k c) (infosRemove i k c) := by
  obtain ⟨hent, hkeys, hlock⟩ := hw
  cases hli : mapLookup i k with
  | none =>
    have hlr : mapLookup r k = none := by
      rw [hlock, mapLookup_roomsOfInfos, hli]
      rfl
    unfold roomsRemove infosRemove
    rw [hli, hlr]
    exact ⟨hent, hkeys, hlock⟩
  | some m =>
    have hlr : mapLookup r k = some (m.map (fun p => p.1)) := by
      rw [hlock, mapLookup_roomsOfInfos, hli]
      rfl
    have hsmem : (k, m.map (fun p => p.1)) ∈ r := mapLookup_some_mem r k _ hlr
    have hkdel : (mapDelete m c).map (fun p => p.1) = (m.map (fun p => p.1)).erase c :=
      innerDelete_keys m c
    unfold roomsRemove infosRemove
    rw [hli, hlr]
    show nsWF
      (if (m.map (fun p => p.1)).erase c = [] then mapDelete r k
        else mapUpdate r k ((m.map (fun p => p.1)).erase c))
      (if mapDelete m c = [] then mapDelete i k else mapUpdate i k (mapDelete m c))
    by_cases hc2 : (m.map (fun p => p.1)).erase c = []
    · have hm2 : mapDelete m c = [] := by
        rw [← map_fst_eq_nil_iff, hkdel]
        exact hc2
      rw [if_pos hc2, if_pos hm2]
      refine ⟨fun e he => hent e (mapDelete_subset r k e he), ?_, ?_⟩
      · rw [keys_mapDelete]
        exact hkeys.erase k
      · rw [roomsOfInfos_mapDelete, hlock]
    · have hm2 : ¬ mapDelete m c = [] := fun h => hc2 (by rw [← hkdel, h]; rfl)
      rw [if_neg hc2, if_neg hm2]
      refine ⟨?_, ?_, ?_⟩
      · exact mapUpdate_forall r k _ _ hent
          ⟨hc2, ((hent _ hsmem).2).erase c⟩
      · rw [keys_mapUpdate, if_pos (mem_keys_of_lookup_some r k _ hlr)]
        exact hkeys
      · rw [roomsOfInfos_mapUpdate, hkdel, hlock]

theorem roomsRemove_conns (r : List (Int × List Conn)) (i : List (Int × List (Conn × ConnInfo)))
    (k : Int) (c : Conn) (hw : nsWF r i) :
    (mapLookup (roomsRemove r k c) k).getD [] = ((mapLookup r k).getD []).erase c := by
  unfold roomsRemove
  cases hlr : mapLookup r k with
  | none =>
    rw [hlr]
    rfl
  | some s =>
    show (mapLookup (if s.erase c = [] then mapDelete r k else mapUpdate r k (s.erase c)) k).getD []
      = (Option.getD (some s) []).erase c
    by_cases hc2 : s.erase c = []
    · rw [if_pos hc2, mapLookup_mapDelete_self r k hw.2.1]
      exact hc2.symm
    · rw [if_neg hc2, mapLookup_mapUpdate_self]
      rfl

theorem roomsRemove_absent_id (r : List (Int × List Conn))
    (i : List (Int × List (Conn × ConnInfo))) (k : Int) (c : Conn) (hw : nsWF r i)
    (hc : c ∉ (mapLookup r k).getD []) :
    roomsRemove r k c = r ∧ infosRemove i k c = i := by
  obtain ⟨hent, hkeys, hlock⟩ := hw
  cases hli : mapLookup i k with
  | none =>
    have hlr : mapLookup r k = none := by
      rw [hlock, mapLookup_roomsOfInfos, hli]
      rfl
    constructor
    · unfold roomsRemove
      rw [hlr]
    · unfold infosRemove
      rw [hli]
  | some m =>
    have hlr : mapLookup r k = some (m.map (fun p => p.1)) := by
      rw [hlock, mapLookup_roomsOfInfos, hli]
      rfl
    rw [hlr] at hc
    have hcs : c ∉ m.map (fun p => p.1) := hc
    have herase : (m.map (fun p => p.1)).erase c = m.map (fun p => p.1) :=
      List.erase_of_not_mem hcs
    have hsne : m.map (fun p => p.1) ≠ [] :=
      (hent (k, m.map (fun p => p.1)) (mapLookup_some_mem r k _ hlr)).1
    constructor
    · unfold roomsRemove
      rw [hlr]
      show (if (m.map (fun p => p.1)).erase c = [] then mapDelete r k
        else mapUpdate r k ((m.map (fun p => p.1)).erase c)) = r
      rw [herase, if_neg hsne]
      exact mapUpdate_lookup_self r k _ hlr
    · unfold infosRemove
      rw [hli]
      have hmdel : mapDelete m c = m := mapDelete_of_not_mem_keys m c hcs
      show (if mapDelete m c = [] then mapDelete i k else mapUpdate i k (mapDelete m c)) = i
      have hmne : m ≠ [] := by
        intro h
        rw [h] at hsne
        exact hsne rfl
      rw [hmdel, if_neg hmne]
      exact mapUpdate_lookup_self i k m hli

theorem nsWF_room_key_iff (r : List (Int × List Conn))
    (i : List (Int × List (Conn × ConnInfo))) (k : Int) (hw : nsWF r i) :
    (∃ e ∈ r, e.1 = k) ↔ (mapLookup r k).getD [] ≠ [] := by
  constructor
  · rintro ⟨e, he, hek⟩
    cases hlr : mapLookup r k with
    | none =>
      rw [mapLookup_eq_none_iff] at hlr
      exact absurd (List.mem_map.mpr ⟨e, he, hek⟩) hlr
    | some s =>
      have : s ≠ [] := (hw.1 (k, s) (mapLookup_some_mem r k s hlr)).1
      simpa using this
  · intro hne
    cases hlr : mapLookup r k with
    | none =>
      rw [hlr] at hne
      exact absurd rfl hne
    | some s => exact ⟨(k, s), mapLookup_some_mem r k s hlr, rfl⟩

theorem HubWF_empty : HubWF emptyHub :=
  ⟨⟨fun e he => absurd he (List.not_mem_nil e), List.nodup_nil, rfl⟩,
   ⟨fun e he => absurd he (List.not_mem_nil e), List.nodup_nil, rfl⟩⟩

theorem HubWF_addChat (h : Hub) (k : Int) (c : Conn) (i : ConnInfo) (hw : HubWF h) :
    HubWF (AddChatClient h k c i) :=
  ⟨nsWF_add _ _ k c i hw.1, hw.2⟩

theorem HubWF_removeChat (h : Hub) (k : Int) (c : Conn) (hw : HubWF h) :
    HubWF (RemoveChatClient h k c) :=
  ⟨nsWF_remove _ _ k c hw.1, hw.2⟩

theorem HubWF_addGroup (h : Hub) (k : Int) (c : Conn) (i : ConnInfo) (hw : HubWF h) :
    HubWF (AddGroupClient h k c i) :=
  ⟨hw.1, nsWF_add _ _ k c i hw.2⟩

theorem HubWF_removeGroup (h : Hub) (k : Int) (c : Conn) (hw : HubWF h) :
    HubWF (RemoveGroupClient h k c) :=
  ⟨hw.1, nsWF_remove _ _ k c hw.2⟩

theorem HubWF_applyRegOps (ops : List RegOp) (h : Hub) (hw : HubWF h) :
    HubWF (applyRegOps h ops) := by
  induction ops generalizing h with
  | nil => exact hw
  | cons op rest ih =>
    cases op with
    | addChat k c i => exact ih _ (HubWF_addChat h k c i hw)
    | removeChat k c => exact ih _ (HubWF_removeChat h k c hw)
    | addGroup k c i => exact ih _ (HubWF_addGroup h k c i hw)
    | removeGroup k c => exact ih _ (HubWF_removeGroup h k c hw)

theorem HubWF_attachAllChat (k : Int) (cs : List Conn) (infoOf : Conn → ConnInfo)
    (h : Hub) (hw : HubWF h) : HubWF (attachAllChat h k cs infoOf) := by
  induction cs generalizing h with
  | nil => exact hw
  | cons c rest ih => exact ih _ (HubWF_addChat h k c (infoOf c) hw)

theorem HubWF_detachAllChat (k : Int) (cs : List Conn) (h : Hub) (hw : HubWF h) :
    HubWF (detachAllChat h k cs) := by
  induction cs generalizing h with
  | nil => exact hw
  | cons c rest ih => exact ih _ (HubWF_removeChat h k c hw)

theorem HubWF_attachAllGroup (k : Int) (cs : List Conn) (infoOf : Conn → ConnInfo)
    (h : Hub) (hw : HubWF h) : HubWF (attachAllGroup h k cs infoOf) := by
  induction cs generalizing h with
  | nil => exact hw
  | cons c rest ih => exact ih _ (HubWF_addGroup h k c (infoOf c) hw)

theorem HubWF_detachAllGroup (k : Int) (cs : List Conn) (h : Hub) (hw : HubWF h) :
    HubWF (detachAllGroup h k cs) := by
  induction cs generalizing h with
  | nil => exact hw
  | cons c rest ih => exact ih _ (HubWF_removeGroup h k c hw)

theorem attachAllChat_conns (k : Int) (infoOf : Conn → ConnInfo) (cs : List Conn)
    (h : Hub) :
    (mapLookup (attachAllChat h k cs infoOf).chatRooms k).getD [] =
      List.foldl connInsert ((mapLookup h.chatRooms k).getD []) cs := by
  induction cs generalizing h with
  | nil => rfl
  | cons c rest ih =>
    show (mapLookup (attachAllChat (AddChatClient h k c (infoOf c)) k rest infoOf).chatRooms
        k).getD [] = _
    rw [ih]
    show _ = List.foldl connInsert (connInsert ((mapLookup h.chatRooms k).getD []) c) rest
    have : (mapLookup (AddChatClient h k c (infoOf c)).chatRooms k).getD []
        = connInsert ((mapLookup h.chatRooms k).getD []) c := by
      show (mapLookup (roomsAdd h.chatRooms k c) k).getD [] = _
      rw [roomsAdd_lookup_self]
      rfl
    rw [this]

theorem attachAllGroup_conns (k : Int) (infoOf : Conn → ConnInfo) (cs : List Conn)
    (h : Hub) :
    (mapLookup (attachAllGroup h k cs infoOf).groupRooms k).getD [] =
      List.foldl connInsert ((mapLookup h.groupRooms k).getD []) cs := by
  induction cs generalizing h with
  | nil => rfl
  | cons c rest ih =>
    show (mapLookup (attachAllGroup (AddGroupClient h k c (infoOf c)) k rest infoOf).groupRooms
        k).getD [] = _
    rw [ih]
    show _ = List.foldl connInsert (connInsert ((mapLookup h.groupRooms k).getD []) c) rest
    have : (mapLookup (AddGroupClient h k c (infoOf c)).groupRooms k).getD []
        = connInsert ((mapLookup h.groupRooms k).getD []) c := by
      show (mapLookup (roomsAdd h.groupRooms k c) k).getD [] = _
      rw [roomsAdd_lookup_self]
      rfl
    rw [this]

theorem detachAllChat_conns (k : Int) (cs : List Conn) (h : Hub) (hw : HubWF h) :
    (mapLookup (detachAllChat h k cs).chatRooms k).getD [] =
      List.foldl (fun l c => l.erase c) ((mapLookup h.chatRooms k).getD []) cs := by
  induction cs generalizing h with
  | nil => rfl
  | cons c rest ih =>
    show (mapLookup (detachAllChat (RemoveChatClient h k c) k rest).chatRooms k).getD [] = _
    rw [ih _ (HubWF_removeChat h k c hw)]
    have : (mapLookup (RemoveChatClient h k c).chatRooms k).getD []
        = ((mapLookup h.chatRooms k).getD []).erase c :=
      roomsRemove_conns h.chatRooms h.chatConnInfo k c hw.1
    rw [this]
    rfl

theorem detachAllGroup_conns (k : Int) (cs : List Conn) (h : Hub) (hw : HubWF h) :
    (mapLookup (detachAllGroup h k cs).groupRooms k).getD [] =
      List.foldl (fun l c => l.erase c) ((mapLookup h.groupRooms k).getD []) cs := by
  induction cs generalizing h with
  | nil => rfl
  | cons c rest ih =>
    show (mapLookup (detachAllGroup (RemoveGroupClient h k c) k rest).groupRooms k).getD [] = _
    rw [ih _ (HubWF_removeGroup h k c hw)]
    have : (mapLookup (RemoveGroupClient h k c).groupRooms k).getD []
        = ((mapLookup h.groupRooms k).getD []).erase c :=
      roomsRemove_conns h.groupRooms h.groupConnInfo k c hw.2
    rw [this]
    rfl

theorem foldl_connInsert_subset (cs : List Conn) (s : List Conn) (x : Conn)
    (h : x ∈ List.foldl connInsert s cs) : x ∈ s ∨ x ∈ cs := by
  induction cs generalizing s with
  | nil => exact Or.inl h
  | cons c rest ih =>
    rcases ih (connInsert s c) h with h2 | h2
    · rcases mem_connInsert s c x h2 with h3 | h3
      · exact Or.inl h3
      · exact Or.inr (List.mem_cons.mpr (Or.inl h3))
    · exact Or.inr (List.mem_cons.mpr (Or.inr h2))

theorem foldl_connInsert_nodup (cs : List Conn) (s : List Conn) (h : s.Nodup) :
    (List.foldl connInsert s cs).Nodup := by
  induction cs generalizing s with
  | nil => exact h
  | cons c rest ih => exact ih (connInsert s c) (connInsert_nodup s c h)

theorem foldl_erase_eq_nil (cs : List Conn) (s : List Conn) (hnd : s.Nodup)
    (hsub : ∀ x ∈ s, x ∈ cs) : List.foldl (fun l c => l.erase c) s cs = [] := by
  induction cs generalizing s with
  | nil =>
    show s = []
    rw [List.eq_nil_iff_forall_not_mem]
    intro x hx
    exact absurd (hsub x hx) (List.not_mem_nil x)
  | cons c rest ih =>
    show List.foldl (fun l c => l.erase c) (s.erase c) rest = []
    refine ih (s.erase c) (hnd.erase c) ?_
    intro x hx
    have hx2 := (List.Nodup.mem_erase_iff hnd).mp hx
    rcases List.mem_cons.mp (hsub x hx2.2) with h | h
    · exact absurd h hx2.1
    · exact h

/-! ## Claim C5 -/

/-- C5: after any sequence of attach/detach operations from the empty hub,
a room key is present in a registry namespace iff at least one connection
is attached to it; detaching a connection that is not attached leaves the
whole hub unchanged (and raises no error — the operation is total); and
attaching a list of connections to a fresh room and then detaching them all
leaves no entry for that room, in the chat namespace and in the group
namespace alike. -/
theorem registry_no_ghost_rooms (ops : List RegOp) :
    (∀ k, (∃ e ∈ (applyRegOps emptyHub ops).chatRooms, e.1 = k) ↔
        (mapLookup (applyRegOps emptyHub ops).chatRooms k).getD [] ≠ []) ∧
    (∀ k, (∃ e ∈ (applyRegOps emptyHub ops).groupRooms, e.1 = k) ↔
        (mapLookup (applyRegOps emptyHub ops).groupRooms k).getD [] ≠ []) ∧
    (∀ k c, c ∉ (mapLookup (applyRegOps emptyHub ops).chatRooms k).getD [] →
        RemoveChatClient (applyRegOps emptyHub ops) k c = applyRegOps emptyHub ops) ∧
    (∀ k c, c ∉ (mapLookup (applyRegOps emptyHub ops).groupRooms k).getD [] →
        RemoveGroupClient (applyRegOps emptyHub ops) k c = applyRegOps emptyHub ops) ∧
    (∀ k cs infoOf, mapLookup (applyRegOps emptyHub ops).chatRooms k = none →
        ∀ e ∈ (detachAllChat (attachAllChat (applyRegOps emptyHub ops) k cs infoOf)
          k cs).chatRooms, e.1 ≠ k) ∧
    (∀ k cs infoOf, mapLookup (applyRegOps emptyHub ops).groupRooms k = none →
        ∀ e ∈ (detachAllGroup (attachAllGroup (applyRegOps emptyHub ops) k cs infoOf)
          k cs).groupRooms, e.1 ≠ k) := by
  have hw : HubWF (applyRegOps emptyHub ops) := HubWF_applyRegOps ops emptyHub HubWF_empty
  refine ⟨?_, ?_, ?_, ?_, ?_, ?_⟩
  · intro k
    exact nsWF_room_key_iff _ _ k hw.1
  · intro k
    exact nsWF_room_key_iff _ _ k hw.2
  · intro k c hc
    obtain ⟨hr, hi⟩ := roomsRemove_absent_id _ _ k c hw.1 hc
    show ({ applyRegOps emptyHub ops with
        chatRooms := roomsRemove (applyRegOps emptyHub ops).chatRooms k c
        chatConnInfo := infosRemove (applyRegOps emptyHub ops).chatConnInfo k c } : Hub)
      = applyRegOps emptyHub ops
    rw [hr, hi]
  · intro k c hc
    obtain ⟨hr, hi⟩ := roomsRemove_absent_id _ _ k c hw.2 hc
    show ({ applyRegOps emptyHub ops with
        groupRooms := roomsRemove (applyRegOps emptyHub ops).groupRooms k c
        groupConnInfo := infosRemove (applyRegOps emptyHub ops).groupConnInfo k c } : Hub)
      = applyRegOps emptyHub ops
    rw [hr, hi]
  · intro k cs infoOf hnone
    have hwA : HubWF (attachAllChat (applyRegOps emptyHub ops) k cs infoOf) :=
      HubWF_attachAllChat k cs infoOf _ hw
    have hwF : HubWF (detachAllChat (attachAllChat (applyRegOps emptyHub ops) k cs infoOf)
        k cs) := HubWF_detachAllChat k cs _ hwA
    have hA := attachAllChat_conns k infoOf cs (applyRegOps emptyHub ops)
    rw [hnone] at hA
    have hS : (mapLookup (attachAllChat (applyRegOps emptyHub ops) k cs infoOf).chatRooms
        k).getD [] = List.foldl connInsert [] cs := hA
    have hD := detachAllChat_conns k cs _ hwA
    rw [hS] at hD
    have hempty : List.foldl (fun l c => l.erase c) (List.foldl connInsert [] cs) cs = [] := by
      refine foldl_erase_eq_nil cs _ (foldl_connInsert_nodup cs [] List.nodup_nil) ?_
      intro x hx
      rcases foldl_connInsert_subset cs [] x hx with h | h
      · exact absurd h (List.not_mem_nil x)
      · exact h
    rw [hempty] at hD
    intro e he hek
    have := (nsWF_room_key_iff _ _ k hwF.1).mp ⟨e, he, hek⟩
    rw [hD] at this
    exact this rfl
  · intro k cs infoOf hnone
    have hwA : HubWF (attachAllGroup (applyRegOps emptyHub ops) k cs infoOf) :=
      HubWF_attachAllGroup k cs infoOf _ hw
    have hwF : HubWF (detachAllGroup (attachAllGroup (applyRegOps emptyHub ops) k cs infoOf)
        k cs) := HubWF_detachAllGroup k cs _ hwA
    have hA := attachAllGroup_conns k infoOf cs (applyRegOps emptyHub ops)
    rw [hnone] at hA
    have hS : (mapLookup (attachAllGroup (applyRegOps emptyHub ops) k cs infoOf).groupRooms
        k).getD [] = List.foldl connInsert [] cs := hA
    have hD := detachAllGroup_conns k cs _ hwA
    rw [hS] at hD
    have hempty : List.foldl (fun l c => l.erase c) (List.foldl connInsert [] cs) cs = [] := by
      refine foldl_erase_eq_nil cs _ (foldl_connInsert_nodup cs [] List.nodup_nil) ?_
      intro x hx
      rcases foldl_connInsert_subset cs [] x hx with h | h
      · exact absurd h (List.not_mem_nil x)
      · exact h
    rw [hempty] at hD
    intro e he hek
    have := (nsWF_room_key_iff _ _ k hwF.2).mp ⟨e, he, hek⟩
    rw [hD] at this
    exact this rfl

theorem registry_no_ghost_rooms_witness :
    RemoveChatClient (applyRegOps emptyHub c5ops) 1 99 = applyRegOps emptyHub c5ops ∧
      (2, [7]) ∉ (detachAllChat (attachAllChat (applyRegOps emptyHub c5ops) 2 [7, 8]
        (fun _ => c5info)) 2 [7, 8]).chatRooms := by
  have h := registry_no_ghost_rooms c5ops
  exact ⟨h.2.2.1 1 99 (by decide),
    fun hmem => h.2.2.2.2.1 2 [7, 8] (fun _ => c5info) (by decide) _ hmem rfl⟩

/-! ## Claim C10 -/

theorem bearer_ne_empty (q : String) : "Bearer " ++ q ≠ "" := by
  intro h
  have h2 := congrArg String.length h
  rw [String.length_append] at h2
  have h3 : "Bearer ".length = 7 := rfl
  have h4 : "".length = 0 := rfl
  rw [h3, h4] at h2
  omega

theorem wsHandle_congr_cred (req1 req2 : WSRequest) (o : WSOracles)
    (hc : req1.chatIDParam = req2.chatIDParam)
    (hcred : credentialOf req1.authHeader req1.tokenQuery
      = credentialOf req2.authHeader req2.tokenQuery) :
    wsHandle req1 o = wsHandle req2 o := by
  unfold wsHandle
  rw [hc, hcred]

/-- C10: the websocket open path takes the credential from the
`Authorization` header or, when that header is empty, from the `token`
query parameter prefixed with `"Bearer "`, and the two forms behave
identically; a credential that does not split into exactly two
space-separated parts (a missing one included) is answered with
`Unauthorized` and an empty external-step trace — so before any membership
check or handshake; and the outcome depends only on the second part of a
two-part credential, never on the scheme word. -/
theorem ws_token_extraction (o : WSOracles) :
    (∀ cid q t, q ≠ "" →
      wsHandle ⟨cid, "Bearer " ++ q, t⟩ o = wsHandle ⟨cid, "", q⟩ o) ∧
    (∀ req : WSRequest, ∀ cid2, req.chatIDParam = some cid2 →
      (splitOnSpace (credentialOf req.authHeader req.tokenQuery)).length ≠ 2 →
      wsHandle req o = (.unauthorized, [])) ∧
    (∀ req1 req2 : WSRequest, ∀ s1 s2 tok,
      req1.chatIDParam = req2.chatIDParam →
      splitOnSpace (credentialOf req1.authHeader req1.tokenQuery) = [s1, tok] →
      splitOnSpace (credentialOf req2.authHeader req2.tokenQuery) = [s2, tok] →
      wsHandle req1 o = wsHandle req2 o) := by
  refine ⟨?_, ?_, ?_⟩
  · intro cid q t hq
    refine wsHandle_congr_cred ⟨cid, "Bearer " ++ q, t⟩ ⟨cid, "", q⟩ o rfl ?_
    show credentialOf ("Bearer " ++ q) t = credentialOf "" q
    unfold credentialOf
    rw [if_neg (bearer_ne_empty q), if_pos rfl, if_neg hq]
  · intro req cid2 hsome hlen
    have hv : validateToken o.validate (credentialOf req.authHeader req.tokenQuery)
        = (none, []) := by
      unfold validateToken
      rw [if_neg hlen]
    unfold wsHandle
    rw [hsome, hv]
  · intro req1 req2 s1 s2 tok hc h1 h2
    unfold wsHandle
    rw [hc]
    cases hcid : req2.chatIDParam with
    | none => rfl
    | some cid2 =>
      have hv1 : validateToken o.validate (credentialOf req1.authHeader req1.tokenQuery)
          = (o.validate tok, [WSStep.validateCall tok]) := by
        unfold validateToken
        rw [h1]
        rfl
      have hv2 : validateToken o.validate (credentialOf req2.authHeader req2.tokenQuery)
          = (o.validate tok, [WSStep.validateCall tok]) := by
        unfold validateToken
        rw [h2]
        rfl
      rw [hv1, hv2]

theorem ws_token_extraction_witness :
    wsHandle ⟨some 5, "Bearer " ++ "tok", "zz"⟩ c10oracle
        = wsHandle ⟨some 5, "", "tok"⟩ c10oracle ∧
      wsHandle ⟨some 5, "NoSpaceToken", ""⟩ c10oracle = (.unauthorized, []) ∧
      wsHandle ⟨some 5, "Custom tok", ""⟩ c10oracle
        = wsHandle ⟨some 5, "Bearer tok", ""⟩ c10oracle := by
  have h := ws_token_extraction c10oracle
  refine ⟨h.1 (some 5) "tok" "zz" (by decide), ?_, ?_⟩
  · exact h.2.1 ⟨some 5, "NoSpaceToken", ""⟩ 5 rfl (by decide)
  · exact h.2.2 ⟨some 5, "Custom tok", ""⟩ ⟨some 5, "Bearer tok", ""⟩ "Custom" "Bearer" "tok"
      rfl (by decide) (by decide)

end ChatService
